import Mathlib

/-!
Coins ledger: transfer, purchase, token issuing and the access gate.

A shallow embedding of the transactional core of the coin shop:

* `internal/models/models.go`     : `Claims`, `AuthRequest`, `SendCoinRequest`,
  `InventoryItem`, `TransactionRecord`, `CoinHistoryResponse`, `InfoResponse`
* `internal/database/db.go`       : the eight methods of `PGXDatabase`
* `internal/services/services.go` : `Service.GenerateToken`, `Service.GetInfo`,
  `Service.SendCoins`, `Service.BuyItem`
* `internal/middleware/jwtMiddleware.go` : `Middleware.JwtMiddleware`
* `cmd/app/main.go`               : `merchItems`

What lies outside the repository (`bcrypt`, the clock, `golang-jwt/jwt/v4`) is an input,
`Libs`, of the calls that use it.

The relational store is three tables held as lists of rows. A transaction
works on a private copy of the tables which replaces the committed tables
only when `Commit` succeeds; every other exit runs the deferred `Rollback`
and leaves the committed tables as they were. Which statements the store
refuses is an input (`Faults`), and every statement sent to the store is
recorded in the pool's log, the way the mocked pool of `db_test.go` records
its expectations.

Go `int` values are modelled by `Int`: the Go code only compares them; all
arithmetic is done by the store inside SQL, where an out-of-range result is
a failed statement (a fault), not a wrapped value.
-/

namespace Coins

/-! ## Data model -/

/-- Row of `users(id, username, password, coins)`. -/
structure UserRow where
  id : Int
  username : String
  password : String
  coins : Int
deriving DecidableEq, Repr

/-- Row of `user_inventory(user_id, item, quantity)`. -/
structure InventoryRow where
  user_id : Int
  item : String
  quantity : Int
deriving DecidableEq, Repr

/-- Row of `coin_transactions(from_user_id, to_user_id, amount)`; the list
order is the order of insertion (`created_at`). -/
structure TransactionRow where
  from_user_id : Int
  to_user_id : Int
  amount : Int
deriving DecidableEq, Repr

/-- Committed contents of the three tables. -/
structure Store where
  users : List UserRow
  user_inventory : List InventoryRow
  coin_transactions : List TransactionRow
deriving DecidableEq, Repr

/-- Identity claim of `models.go` (the registered JWT claims play no role in
the ledger operations). -/
structure Claims where
  Username : String
  UserID : Int
deriving DecidableEq, Repr

/-- Request body of `/api/sendCoin`. -/
structure SendCoinRequest where
  ToUser : String
  Amount : Int
deriving DecidableEq, Repr

/-- Request body of `/api/auth`. -/
structure AuthRequest where
  Username : String
  Password : String
deriving DecidableEq, Repr

/-- Entry of the inventory listing of `/api/info`; `Type_` is the Go field `Type`. -/
structure InventoryItem where
  Type_ : String
  Quantity : Int
deriving DecidableEq, Repr

/-- Entry of a coin history: `FromUser` is set in the received history, `ToUser` in the
sent history, the other one stays the empty string. -/
structure TransactionRecord where
  FromUser : String
  ToUser : String
  Amount : Int
deriving DecidableEq, Repr

/-- The two histories of `/api/info`. -/
structure CoinHistoryResponse where
  Received : List TransactionRecord
  Sent : List TransactionRecord
deriving DecidableEq, Repr

/-- Response body of `/api/info`. -/
structure InfoResponse where
  CoinHistory : CoinHistoryResponse
  Inventory : List InventoryItem
  Coins : Int
deriving DecidableEq, Repr

/-- The `jwt.RegisteredClaims` embedded in `models.Claims`; `GenerateToken` sets these two
and leaves the others nil. Instants are nanoseconds. -/
structure RegisteredClaims where
  ExpiresAt : Option Int
  IssuedAt : Option Int
deriving DecidableEq, Repr

/-- The whole of `models.Claims` as it travels in a token: the registered claims and the
identity claim. -/
structure Payload where
  registered : RegisteredClaims
  claims : Claims
deriving DecidableEq, Repr

/-- Go `error`: `none` is `nil`, `some msg` an error with that message. -/
abbrev Error := Option String

def StatusOK : Int := 200
def StatusBadRequest : Int := 400
def StatusUnauthorized : Int := 401
def StatusInternalServerError : Int := 500

/-! ## Statements and the pool -/

/-- The statements `SendCoins` and `BuyItem` send to the store. -/
inductive Stmt where
  | begin
  | selectId (username : String)
  | selectCoins (userid : Int)
  | updateSub (amount : Int) (userid : Int)
  | updateAdd (amount : Int) (userid : Int)
  | insertTransaction (fromId : Int) (toId : Int) (amount : Int)
  | upsertInventory (userid : Int) (item : String)
  | commit
  | rollback
  | selectIdPass (username : String)
  | insertUser (username : String) (passhash : String)
  | selectItems (userid : Int)
  | selectReceived (userid : Int)
  | selectSent (userid : Int)
  | nextItems (userid : Int) (row : Nat)
  | nextReceived (userid : Int) (row : Nat)
  | nextSent (userid : Int) (row : Nat)
deriving DecidableEq, Repr

/-- Whether a statement is an `UPDATE` or an `INSERT`. -/
def Stmt.isWrite : Stmt → Bool
  | .updateSub _ _ => true
  | .updateAdd _ _ => true
  | .insertTransaction _ _ _ => true
  | .upsertInventory _ _ => true
  | .insertUser _ _ => true
  | _ => false

/-- One statement sent to the store and whether the store accepted it. -/
structure Event where
  stmt : Stmt
  ok : Bool
deriving DecidableEq, Repr

/-- The store's refusals during one call: `some msg` makes the statement
fail with that error. -/
abbrev Faults := Stmt → Error

/-- The fault plan under which every statement is accepted. -/
def noFaults : Faults := fun _ => none

/-- The pool: the committed tables and the log of statements sent so far. -/
structure Pool where
  store : Store
  log : List Event
deriving DecidableEq, Repr

/-- Result of a database or service call: status, error, and the pool
afterwards. -/
structure Outcome (σ : Type) where
  status : Int
  err : Error
  pool : σ

/-- Result of a database read or insert: the value, the error, and the pool afterwards. -/
structure Reply (α : Type) (σ : Type) where
  val : α
  err : Error
  pool : σ

/-- Error of `Scan` on an empty result. -/
def ErrNoRows : String := "no rows in result set"

/-! ## SQL semantics on the tables -/

/-- Statement `SELECT id FROM users WHERE username=$1`, first row. -/
def Store.selectId (s : Store) (username : String) : Option Int :=
  (s.users.find? (fun u => u.username == username)).map (fun u => u.id)

/-- Statement `SELECT coins FROM users WHERE id=$1`, first row. -/
def Store.selectCoins (s : Store) (userid : Int) : Option Int :=
  (s.users.find? (fun u => u.id == userid)).map (fun u => u.coins)

/-- Statement `UPDATE users SET coins = coins - $1 WHERE id=$2`. -/
def Store.updateSub (s : Store) (amount userid : Int) : Store :=
  { s with
    users := List.map
      (fun u => if u.id = userid then { u with coins := u.coins - amount } else u) s.users }

/-- Statement `UPDATE users SET coins = coins + $1 WHERE id=$2`. -/
def Store.updateAdd (s : Store) (amount userid : Int) : Store :=
  { s with
    users := List.map
      (fun u => if u.id = userid then { u with coins := u.coins + amount } else u) s.users }

/-- Statement `INSERT INTO coin_transactions (from_user_id, to_user_id, amount)`. -/
def Store.insertTransaction (s : Store) (fromId toId amount : Int) : Store :=
  { s with coin_transactions := s.coin_transactions ++ [⟨fromId, toId, amount⟩] }

/-- Whether an inventory row is the row of `(userid, item)`. -/
def InventoryRow.isFor (userid : Int) (item : String) (r : InventoryRow) : Bool :=
  r.user_id == userid && r.item == item

/-- Statement `INSERT INTO user_inventory ... VALUES ($1, $2, 1) ON CONFLICT (user_id, item)
DO UPDATE SET quantity = user_inventory.quantity + 1`. -/
def Store.upsertInventory (s : Store) (userid : Int) (item : String) : Store :=
  if s.user_inventory.any (InventoryRow.isFor userid item) then
    { s with
      user_inventory := List.map
        (fun r => if r.isFor userid item then { r with quantity := r.quantity + 1 } else r)
        s.user_inventory }
  else
    { s with user_inventory := s.user_inventory ++ [⟨userid, item, 1⟩] }

/-- Statement `SELECT quantity FROM user_inventory` for `(userid, item)`, first row. -/
def Store.quantity (s : Store) (userid : Int) (item : String) : Option Int :=
  (s.user_inventory.find? (InventoryRow.isFor userid item)).map (fun r => r.quantity)

/-- Statement `SELECT id, password FROM users WHERE username=$1`, first row. -/
def Store.selectIdPass (s : Store) (username : String) : Option (Int × String) :=
  (s.users.find? (fun u => u.username == username)).map (fun u => (u.id, u.password))

/-- Statement `SELECT item, quantity FROM user_inventory WHERE user_id=$1`, in table
order. -/
def Store.selectItems (s : Store) (userid : Int) : List InventoryItem :=
  (s.user_inventory.filter (fun r => r.user_id == userid)).map
    (fun r => ⟨r.item, r.quantity⟩)

/-- Statement `SELECT u.username, ct.amount FROM coin_transactions ct JOIN users u ON
ct.from_user_id = u.id WHERE ct.to_user_id=$1 ORDER BY ct.created_at`, scanned into
`FromUser` and `Amount`. -/
def Store.selectReceived (s : Store) (userid : Int) : List TransactionRecord :=
  (s.coin_transactions.filter (fun ct => ct.to_user_id == userid)).flatMap
    (fun ct => (s.users.filter (fun u => ct.from_user_id == u.id)).map
      (fun u => ⟨u.username, "", ct.amount⟩))

/-- Statement `SELECT u.username, ct.amount FROM coin_transactions ct JOIN users u ON
ct.to_user_id = u.id WHERE ct.from_user_id=$1 ORDER BY ct.created_at`, scanned into
`ToUser` and `Amount`. -/
def Store.selectSent (s : Store) (userid : Int) : List TransactionRecord :=
  (s.coin_transactions.filter (fun ct => ct.from_user_id == userid)).flatMap
    (fun ct => (s.users.filter (fun u => ct.to_user_id == u.id)).map
      (fun u => ⟨"", u.username, ct.amount⟩))

/-- Modelled from the spec: the declaration of the `users` table is not among the
sources. The spec gives every user "a numeric identifier" that the store assigns when the
row is created; the model hands out one more than the largest id in the table (1 on the
empty table), an id no row holds. -/
def Store.nextId (s : Store) : Int :=
  (s.users.map (fun u => u.id)).foldr max 0 + 1

/-- Modelled from the spec: the declaration of the `users` table is not among the
sources. The spec gives it as `users(id, username unique, password hash, coins)`: a row
whose username some row already holds is refused. -/
def Store.usernameTaken (s : Store) (username : String) : Bool :=
  s.users.any (fun u => u.username == username)

/-- Error of an insert that breaks the uniqueness of `username`. -/
def ErrUniqueViolation : String := "duplicate key value violates unique constraint"

/-- Statement `INSERT INTO users (username, password, coins) VALUES ($1, $2, 1000)
RETURNING id`: the table with the new row, and the id it got. -/
def Store.insertUser (s : Store) (username passhash : String) : Store × Int :=
  ({ s with users := s.users ++ [⟨s.nextId, username, passhash, 1000⟩] }, s.nextId)

/-- Go `QueryRow(...).Scan(...)` inside a transaction: the store's refusal, or
`ErrNoRows` when no row matches, or the first row's value. -/
def queryRow (f : Faults) (st : Stmt) (rows : Option Int) : Except String Int :=
  match f st with
  | some e => .error e
  | none =>
    match rows with
    | none => .error ErrNoRows
    | some v => .ok v

/-! ## `internal/database/db.go` -/

namespace PGXDatabase

/-- Exit of a call whose transaction is still open: the deferred `Rollback`
discards the transaction, the committed tables `p.store` stay. -/
def abort (p : Pool) (sent : List Event) (status : Int) (e : String) : Outcome Pool :=
  ⟨status, some e, ⟨p.store, p.log ++ sent ++ [⟨.rollback, true⟩]⟩⟩

/-- Go `func (db *PGXDatabase) SendCoins(ctx, userid, touser, amount) (int, error)`. -/
def SendCoins (f : Faults) (userid : Int) (touser : String) (amount : Int) (p : Pool) :
    Outcome Pool :=
  match f .begin with
  | some e => ⟨StatusInternalServerError, some e, ⟨p.store, p.log ++ [⟨.begin, false⟩]⟩⟩
  | none =>
  let tx := p.store
  let l0 : List Event := [⟨.begin, true⟩]
  match queryRow f (.selectId touser) (tx.selectId touser) with
  | .error e => abort p (l0 ++ [⟨.selectId touser, false⟩]) StatusBadRequest e
  | .ok receiverID =>
  let l1 := l0 ++ [⟨.selectId touser, true⟩]
  match queryRow f (.selectCoins userid) (tx.selectCoins userid) with
  | .error e => abort p (l1 ++ [⟨.selectCoins userid, false⟩]) StatusInternalServerError e
  | .ok senderCoins =>
  let l2 := l1 ++ [⟨.selectCoins userid, true⟩]
  if senderCoins < amount then
    abort p l2 StatusInternalServerError "недостаточно монет"
  else
  match f (.updateSub amount userid) with
  | some e => abort p (l2 ++ [⟨.updateSub amount userid, false⟩]) StatusInternalServerError e
  | none =>
  let tx := tx.updateSub amount userid
  let l3 := l2 ++ [⟨.updateSub amount userid, true⟩]
  match f (.updateAdd amount receiverID) with
  | some e => abort p (l3 ++ [⟨.updateAdd amount receiverID, false⟩]) StatusInternalServerError e
  | none =>
  let tx := tx.updateAdd amount receiverID
  let l4 := l3 ++ [⟨.updateAdd amount receiverID, true⟩]
  match f (.insertTransaction userid receiverID amount) with
  | some e =>
    abort p (l4 ++ [⟨.insertTransaction userid receiverID amount, false⟩])
      StatusInternalServerError e
  | none =>
  let tx := tx.insertTransaction userid receiverID amount
  let l5 := l4 ++ [⟨.insertTransaction userid receiverID amount, true⟩]
  match f .commit with
  | some e => ⟨StatusInternalServerError, some e, ⟨p.store, p.log ++ l5 ++ [⟨.commit, false⟩]⟩⟩
  | none => ⟨StatusOK, none, ⟨tx, p.log ++ l5 ++ [⟨.commit, true⟩]⟩⟩

/-- Go `func (db *PGXDatabase) BuyItem(ctx, userid, price, item) (int, error)`. -/
def BuyItem (f : Faults) (userid : Int) (price : Int) (item : String) (p : Pool) :
    Outcome Pool :=
  match f .begin with
  | some e => ⟨StatusInternalServerError, some e, ⟨p.store, p.log ++ [⟨.begin, false⟩]⟩⟩
  | none =>
  let tx := p.store
  let l0 : List Event := [⟨.begin, true⟩]
  match queryRow f (.selectCoins userid) (tx.selectCoins userid) with
  | .error e => abort p (l0 ++ [⟨.selectCoins userid, false⟩]) StatusInternalServerError e
  | .ok coins =>
  let l1 := l0 ++ [⟨.selectCoins userid, true⟩]
  if coins < price then
    abort p l1 StatusBadRequest "недостаточно монет для покупки"
  else
  match f (.updateSub price userid) with
  | some e => abort p (l1 ++ [⟨.updateSub price userid, false⟩]) StatusInternalServerError e
  | none =>
  let tx := tx.updateSub price userid
  let l2 := l1 ++ [⟨.updateSub price userid, true⟩]
  match f (.upsertInventory userid item) with
  | some e => abort p (l2 ++ [⟨.upsertInventory userid item, false⟩]) StatusInternalServerError e
  | none =>
  let tx := tx.upsertInventory userid item
  let l3 := l2 ++ [⟨.upsertInventory userid item, true⟩]
  match f .commit with
  | some e => ⟨StatusInternalServerError, some e, ⟨p.store, p.log ++ l3 ++ [⟨.commit, false⟩]⟩⟩
  | none => ⟨StatusOK, none, ⟨tx, p.log ++ l3 ++ [⟨.commit, true⟩]⟩⟩

/-- A statement sent on the pool itself, outside any transaction. -/
def sent (p : Pool) (st : Stmt) (ok : Bool) : Pool :=
  ⟨p.store, p.log ++ [⟨st, ok⟩]⟩

/-- Go `func (db *PGXDatabase) SelectIDPassHashQuery(ctx, username) (userID int,
storedHash string, err error)`. -/
def SelectIDPassHashQuery (f : Faults) (username : String) (p : Pool) :
    Reply (Int × String) Pool :=
  match f (.selectIdPass username) with
  | some e => ⟨(0, ""), some e, sent p (.selectIdPass username) false⟩
  | none =>
    match p.store.selectIdPass username with
    | none => ⟨(0, ""), some ErrNoRows, sent p (.selectIdPass username) false⟩
    | some row => ⟨row, none, sent p (.selectIdPass username) true⟩

/-- Go `func (db *PGXDatabase) InsertUserQuery(ctx, username, passhash) (int, error)`. -/
def InsertUserQuery (f : Faults) (username passhash : String) (p : Pool) : Reply Int Pool :=
  match f (.insertUser username passhash) with
  | some e => ⟨0, some e, sent p (.insertUser username passhash) false⟩
  | none =>
    if p.store.usernameTaken username then
      ⟨0, some ErrUniqueViolation, sent p (.insertUser username passhash) false⟩
    else
      ⟨(p.store.insertUser username passhash).2, none,
        ⟨(p.store.insertUser username passhash).1,
          p.log ++ [⟨.insertUser username passhash, true⟩]⟩⟩

/-- Go `func (db *PGXDatabase) SelectCoinsQuery(ctx, userid) (int, error)`. -/
def SelectCoinsQuery (f : Faults) (userid : Int) (p : Pool) : Reply Int Pool :=
  match queryRow f (.selectCoins userid) (p.store.selectCoins userid) with
  | .error e => ⟨0, some e, sent p (.selectCoins userid) false⟩
  | .ok coins => ⟨coins, none, sent p (.selectCoins userid) true⟩

/-- The loop `for rows.Next()` over the rows of an accepted query: `next k` is the fetch
of row number `k`, counted from `k`, and the loop ends at the first fetch the store fails.
None of the three list reads looks at `rows.Err()` after the loop, so a failed fetch only
cuts the list short. `rows.Scan` reads a text and an integer column into a `string` and an
`int`, which the typed rows of `Store` always fit. -/
def rowsSeen {α : Type} (f : Faults) (next : Nat → Stmt) : Nat → List α → List α
  | _, [] => []
  | k, a :: rest =>
    match f (next k) with
    | some _ => []
    | none => a :: rowsSeen f next (k + 1) rest

/-- Go `func (db *PGXDatabase) SelectUserItemsQuery(ctx, userid) ([]models.InventoryItem,
error)`. -/
def SelectUserItemsQuery (f : Faults) (userid : Int) (p : Pool) :
    Reply (List InventoryItem) Pool :=
  match f (.selectItems userid) with
  | some e => ⟨[], some e, sent p (.selectItems userid) false⟩
  | none =>
    ⟨rowsSeen f (.nextItems userid) 0 (p.store.selectItems userid), none,
      sent p (.selectItems userid) true⟩

/-- Go `func (db *PGXDatabase) SelectReceivedMoneyQuery(ctx, userid)
([]models.TransactionRecord, error)`. -/
def SelectReceivedMoneyQuery (f : Faults) (userid : Int) (p : Pool) :
    Reply (List TransactionRecord) Pool :=
  match f (.selectReceived userid) with
  | some e => ⟨[], some e, sent p (.selectReceived userid) false⟩
  | none =>
    ⟨rowsSeen f (.nextReceived userid) 0 (p.store.selectReceived userid), none,
      sent p (.selectReceived userid) true⟩

/-- Go `func (db *PGXDatabase) SelectSentMoneyQuery(ctx, userid)
([]models.TransactionRecord, error)`. -/
def SelectSentMoneyQuery (f : Faults) (userid : Int) (p : Pool) :
    Reply (List TransactionRecord) Pool :=
  match f (.selectSent userid) with
  | some e => ⟨[], some e, sent p (.selectSent userid) false⟩
  | none =>
    ⟨rowsSeen f (.nextSent userid) 0 (p.store.selectSent userid), none,
      sent p (.selectSent userid) true⟩

end PGXDatabase

/-- The `Database` interface, over an arbitrary implementation state `σ`. -/
structure Database (σ : Type) where
  SelectIDPassHashQuery : String → σ → Reply (Int × String) σ
  InsertUserQuery : String → String → σ → Reply Int σ
  SelectCoinsQuery : Int → σ → Reply Int σ
  SelectUserItemsQuery : Int → σ → Reply (List InventoryItem) σ
  SelectReceivedMoneyQuery : Int → σ → Reply (List TransactionRecord) σ
  SelectSentMoneyQuery : Int → σ → Reply (List TransactionRecord) σ
  SendCoins : Int → String → Int → σ → Outcome σ
  BuyItem : Int → Int → String → σ → Outcome σ

/-- Constructor `NewPGXDatabase(pool)`: the implementation over a pool that behaves as
`f` says. -/
def NewPGXDatabase (f : Faults) : Database Pool where
  SelectIDPassHashQuery := PGXDatabase.SelectIDPassHashQuery f
  InsertUserQuery := PGXDatabase.InsertUserQuery f
  SelectCoinsQuery := PGXDatabase.SelectCoinsQuery f
  SelectUserItemsQuery := PGXDatabase.SelectUserItemsQuery f
  SelectReceivedMoneyQuery := PGXDatabase.SelectReceivedMoneyQuery f
  SelectSentMoneyQuery := PGXDatabase.SelectSentMoneyQuery f
  SendCoins := PGXDatabase.SendCoins f
  BuyItem := PGXDatabase.BuyItem f

/-! ## `internal/services/services.go` -/

/-- Go `Service`. The field `jwtSecret` is read by `GenerateToken` alone, which takes it
as its argument `jwtSecret`. -/
structure Service (σ : Type) where
  database : Database σ
  merchItems : List (String × Int)

/-- Constructor `NewService(db, jwtSecret, merchItems)`. -/
def NewService {σ : Type} (db : Database σ) (merchItems : List (String × Int)) : Service σ :=
  ⟨db, merchItems⟩

/-! ## Libraries outside the repository -/

namespace jwt

/-- A token as `Parser.ParseUnverified` of `golang-jwt/jwt/v4` hands it on: the signing
method named by the header field `alg`, the claims, and the two parts a signature check
compares. -/
structure Token where
  alg : String
  payload : Payload
  signingString : String
  signature : String
deriving DecidableEq, Repr

/-- The name `SigningMethodHS512.Alg()`. -/
def SigningMethodHS512 : String := "HS512"

/-- The name `SigningMethodHS256.Alg()`. -/
def SigningMethodHS256 : String := "HS256"

/-- Function `jwt.NewNumericDate(t)`: the instant cut down to whole seconds
(`TimePrecision`). -/
def NewNumericDate (t : Int) : Int := t - t % 1000000000

end jwt

/-- What one request calls outside the repository: `bcrypt`, the clock, and the encoding,
signing, decoding and validating of `golang-jwt/jwt/v4`. -/
structure Libs where
  /-- Function `bcrypt.GenerateFromPassword(password, bcrypt.DefaultCost)`. -/
  GenerateFromPassword : String → Except String String
  /-- Function `bcrypt.CompareHashAndPassword(hash, password)`. -/
  CompareHashAndPassword : String → String → Error
  /-- First reading of `time.Now()` in the request. -/
  Now1 : Int
  /-- Second reading of `time.Now()` in the request. -/
  Now2 : Int
  /-- Method `Token.SigningString()` of a token made for the method `alg` and the claims. -/
  SigningString : String → Payload → Except String String
  /-- Method `Sign(signingString, key)` of the signing method `alg`. -/
  Sign : String → String → String → Except String String
  /-- Method `Parser.ParseUnverified`: the three segments decoded, the method looked up. -/
  ParseUnverified : String → Except String jwt.Token
  /-- Validation of the claims and check of the signature against the key. -/
  Validate : jwt.Token → String → Error

namespace jwt

/-- Method `Token.SignedString(key)` of a token made by `NewWithClaims(alg, claims)`: the
signing string, a dot, the signature. -/
def SignedString (x : Libs) (alg : String) (claims : Payload) (key : String) :
    Except String String :=
  match x.SigningString alg claims with
  | .error e => .error e
  | .ok sstr =>
    match x.Sign alg sstr key with
    | .error e => .error e
    | .ok sig => .ok (sstr ++ "." ++ sig)

/-- Function `jwt.ParseWithClaims(tokenStr, claims, keyFunc)`: decode, ask `keyFunc` for
the key (its error is the error returned), then validate; a token comes back valid exactly
when no error does. -/
def ParseWithClaims (x : Libs) (tokenStr : String) (keyFunc : Token → Except String String) :
    Except String Token :=
  match x.ParseUnverified tokenStr with
  | .error e => .error e
  | .ok token =>
    match keyFunc token with
    | .error e => .error e
    | .ok key =>
      match x.Validate token key with
      | some e => .error e
      | none => .ok token

end jwt

/-- Constant `24 * time.Hour`, in nanoseconds. -/
def TokenExpireDuration : Int := 24 * 3600000000000

/-- Result of `GenerateToken`: token, status, error, and the pool afterwards. -/
structure TokenOutcome (σ : Type) where
  token : String
  status : Int
  err : Error
  pool : σ

/-- Result of `GetInfo`: info, status, error, and the pool afterwards. -/
structure InfoOutcome (σ : Type) where
  info : InfoResponse
  status : Int
  err : Error
  pool : σ

/-- The zero value `models.InfoResponse{}`. -/
def InfoResponse.zero : InfoResponse := ⟨⟨[], []⟩, [], 0⟩

namespace Service

/-- The claims `GenerateToken` signs for a resolved user id. -/
def tokenClaims (x : Libs) (userID : Int) (username : String) : Payload :=
  ⟨⟨some (jwt.NewNumericDate (x.Now1 + TokenExpireDuration)),
    some (jwt.NewNumericDate x.Now2)⟩, ⟨username, userID⟩⟩

/-- The first half of `GenerateToken`: the user id resolved by lookup, registration or
password check, or the early return. -/
def resolveUser {σ : Type} (s : Service σ) (x : Libs) (req : AuthRequest) (p : σ) :
    Except (TokenOutcome σ) (Int × σ) :=
  let r := s.database.SelectIDPassHashQuery req.Username p
  match r.err with
  | some _ =>
    match x.GenerateFromPassword req.Password with
    | .error e => .error ⟨"", StatusInternalServerError, some e, r.pool⟩
    | .ok hashedPassword =>
      let i := s.database.InsertUserQuery req.Username hashedPassword r.pool
      match i.err with
      | some e => .error ⟨"", StatusInternalServerError, some e, i.pool⟩
      | none => .ok (i.val, i.pool)
  | none =>
    match x.CompareHashAndPassword r.val.2 req.Password with
    | some _ => .error ⟨"", StatusUnauthorized, some "неверный пароль", r.pool⟩
    | none => .ok (r.val.1, r.pool)

/-- Go `func (s *Service) GenerateToken(context, req) (tokenStr string, status int,
err error)`. -/
def GenerateToken {σ : Type} (s : Service σ) (jwtSecret : String) (x : Libs)
    (req : AuthRequest) (p : σ) : TokenOutcome σ :=
  match resolveUser s x req p with
  | .error out => out
  | .ok (userID, q) =>
    match jwt.SignedString x jwt.SigningMethodHS512 (tokenClaims x userID req.Username)
        jwtSecret with
    | .error e => ⟨"", StatusInternalServerError, some e, q⟩
    | .ok tokenStr => ⟨tokenStr, StatusOK, none, q⟩

/-- Go `func (s *Service) GetInfo(context, user) (info models.InfoResponse, status int,
err error)`. -/
def GetInfo {σ : Type} (s : Service σ) (user : Claims) (p : σ) : InfoOutcome σ :=
  let c := s.database.SelectCoinsQuery user.UserID p
  match c.err with
  | some e => ⟨InfoResponse.zero, StatusInternalServerError, some e, c.pool⟩
  | none =>
  let i := s.database.SelectUserItemsQuery user.UserID c.pool
  match i.err with
  | some e => ⟨InfoResponse.zero, StatusInternalServerError, some e, i.pool⟩
  | none =>
  let r := s.database.SelectReceivedMoneyQuery user.UserID i.pool
  match r.err with
  | some e => ⟨InfoResponse.zero, StatusInternalServerError, some e, r.pool⟩
  | none =>
  let t := s.database.SelectSentMoneyQuery user.UserID r.pool
  match t.err with
  | some e => ⟨InfoResponse.zero, StatusInternalServerError, some e, t.pool⟩
  | none => ⟨⟨⟨r.val, t.val⟩, i.val, c.val⟩, StatusOK, none, t.pool⟩

/-- Go `func (s *Service) SendCoins(context, user, req) (status int, err error)`. -/
def SendCoins {σ : Type} (s : Service σ) (user : Claims) (req : SendCoinRequest) (p : σ) :
    Outcome σ :=
  if req.Amount ≤ 0 then
    ⟨StatusBadRequest, some "количество монет должно быть положительным", p⟩
  else if req.ToUser = "" ∨ req.ToUser = user.Username then
    ⟨StatusBadRequest, some "неверный получатель", p⟩
  else
    s.database.SendCoins user.UserID req.ToUser req.Amount p

/-- Go `func (s *Service) BuyItem(context, user, item) (status int, err error)`. -/
def BuyItem {σ : Type} (s : Service σ) (user : Claims) (item : String) (p : σ) : Outcome σ :=
  match s.merchItems.lookup item with
  | none => ⟨StatusInternalServerError, some "товар не найден", p⟩
  | some price => s.database.BuyItem user.UserID price item p

end Service

/-! ## `internal/middleware/jwtMiddleware.go` -/

/-- Function `strings.Split(s, sep)` for a separator of one character: the pieces of `s`
between the occurrences of `sep`, one piece more than there are occurrences. -/
def strings.Split (s : String) (sep : Char) : List String :=
  (s.toList.splitOn sep).map String.mk

/-- What a handler wrote: the status and the body. -/
structure Response where
  status : Int
  body : String
deriving DecidableEq, Repr

/-- Function `http.Error(w, msg, code)`: the status `code` and the line `msg`. -/
def http.Error (msg : String) (code : Int) : Response := ⟨code, msg ++ "\n"⟩

/-- What the middleware did with one request: the response written, the token string it
gave to `jwt.ParseWithClaims` if it got that far, and the claims it put in the context of
the request it passed to `next`, if it did. -/
structure Served where
  response : Response
  parsed : Option String
  forwarded : Option Claims
deriving DecidableEq, Repr

/-- Go `Middleware`. -/
structure Middleware where
  jwtSecret : String

/-- Constructor `NewMiddleware(jwtSecret)`. -/
def NewMiddleware (jwtSecret : String) : Middleware := ⟨jwtSecret⟩

namespace Middleware

/-- The key function `JwtMiddleware` gives to `jwt.ParseWithClaims`. -/
def keyFunc (m : Middleware) (token : jwt.Token) : Except String String :=
  if token.alg ≠ jwt.SigningMethodHS512 then
    .error ("неправильный метод подписи: " ++ token.alg)
  else
    .ok m.jwtSecret

/-- Go `func (m *Middleware) JwtMiddleware(next http.Handler) http.Handler`, applied to a
request whose `Authorization` header is `authHeader` (empty when the header is missing).
The type assertion on the parsed claims cannot fail and has no branch here. -/
def JwtMiddleware (m : Middleware) (x : Libs) (next : Claims → Response)
    (authHeader : String) : Served :=
  if authHeader = "" then
    ⟨http.Error "Нет заголовка Authorization" StatusUnauthorized, none, none⟩
  else
    let parts := strings.Split authHeader ' '
    if parts.length ≠ 2 ∨ parts.head? ≠ some "Bearer" then
      ⟨http.Error "Неправильный формат заголовка Authorization" StatusUnauthorized, none, none⟩
    else
      let tokenStr := parts.getD 1 ""
      match jwt.ParseWithClaims x tokenStr m.keyFunc with
      | .error e =>
        ⟨http.Error ("Неправибльный токен: " ++ e) StatusUnauthorized, some tokenStr, none⟩
      | .ok token =>
        ⟨next token.payload.claims, some tokenStr, some token.payload.claims⟩

end Middleware

/-! ## `cmd/app/main.go` -/

/-- The catalog `merchItems` of `main.go`. -/
def merchItems : List (String × Int) :=
  [("t-shirt", 80), ("cup", 20), ("book", 50), ("pen", 10), ("powerbank", 200),
   ("hoody", 300), ("umbrella", 200), ("socks", 10), ("wallet", 50), ("pink-hoody", 500)]

/-! ## Sequences of service calls -/

/-- One service-level call together with the store's behaviour during it. -/
inductive Call where
  | send (f : Faults) (user : Claims) (req : SendCoinRequest)
  | buy (f : Faults) (user : Claims) (item : String)

/-- The service as wired in `main.go` and `app.go`: the PGX database over a pool that
behaves as `f` says, and the catalog `merchItems`. -/
def shop (f : Faults) : Service Pool := NewService (NewPGXDatabase f) merchItems

/-- A call served by `shop`. -/
def Call.run (c : Call) (p : Pool) : Outcome Pool :=
  match c with
  | .send f user req => (shop f).SendCoins user req p
  | .buy f user item => (shop f).BuyItem user item p

/-- Calls served one after another: the statuses returned, and the pool at the end. -/
def runCalls : List Call → Pool → List Int × Pool
  | [], p => ([], p)
  | c :: cs, p => ((c.run p).status :: (runCalls cs (c.run p).pool).1,
      (runCalls cs (c.run p).pool).2)

/-! ## Vocabulary of the statements -/

/-- Every balance is non-negative. -/
def Store.NonNeg (s : Store) : Prop := ∀ u ∈ s.users, 0 ≤ u.coins

/-- The key constraint of `users`: no two rows share an `id`. -/
def Store.KeyedById (s : Store) : Prop := (s.users.map (fun u => u.id)).Nodup

/-- Inventory rows of `(userid, item)`. -/
def Store.entries (s : Store) (userid : Int) (item : String) : List InventoryRow :=
  s.user_inventory.filter (InventoryRow.isFor userid item)

/-- Events of a transfer up to its commit. -/
def sendEvents (userid receiverID : Int) (touser : String) (amount : Int) : List Event :=
  [⟨.begin, true⟩, ⟨.selectId touser, true⟩, ⟨.selectCoins userid, true⟩,
   ⟨.updateSub amount userid, true⟩, ⟨.updateAdd amount receiverID, true⟩,
   ⟨.insertTransaction userid receiverID amount, true⟩]

/-- Tables a transfer commits. -/
def sendTables (s : Store) (userid receiverID amount : Int) : Store :=
  ((s.updateSub amount userid).updateAdd amount receiverID).insertTransaction
    userid receiverID amount

/-- Tables a purchase commits. -/
def buyTables (s : Store) (userid price : Int) (item : String) : Store :=
  (s.updateSub price userid).upsertInventory userid item

/-- Failure points of `SendCoins` inside the atomic unit: the sender balance read, the
debit, the credit, the record insert and the commit. -/
def Stmt.isSendCoinsStep : Stmt → Bool
  | .selectCoins _ => true
  | .updateSub _ _ => true
  | .updateAdd _ _ => true
  | .insertTransaction _ _ _ => true
  | .commit => true
  | _ => false

/-- Failure points of `BuyItem`: the balance read, the debit, the inventory upsert and
the commit. -/
def Stmt.isBuyItemStep : Stmt → Bool
  | .selectCoins _ => true
  | .updateSub _ _ => true
  | .upsertInventory _ _ => true
  | .commit => true
  | _ => false

/-- Events a call added to the pool's log. -/
def sentBy (before : Pool) (after : Pool) : List Event :=
  after.log.drop before.log.length

/-- If one of the steps `isStep` failed during the call that produced `r` from `p`, then
`r` is status 500 with an error and the committed tables of `p`. -/
def FailsClean (isStep : Stmt → Bool) (p : Pool) (r : Outcome Pool) : Prop :=
  ∀ e ∈ sentBy p r.pool, e.ok = false → isStep e.stmt = true →
    r.status = StatusInternalServerError ∧ r.err ≠ none ∧ r.pool.store = p.store

/-- The fault plan under which exactly the statement `st` is refused. -/
def failAt (st : Stmt) : Faults := fun x => if x = st then some "store failure" else none

/-- A small pool: "a" (id 1) holds 100 coins, "b" (id 2) holds 5, nothing bought or sent. -/
def demoPool : Pool := ⟨⟨[⟨1, "a", "h", 100⟩, ⟨2, "b", "h", 5⟩], [], []⟩, []⟩

/-- Modelled from the spec: the declarations of the tables are not among the sources.
The spec makes the user id "the foreign key for all other entities": every inventory row
and both ends of every transaction row name the id of a row of `users`. -/
def Store.Referenced (s : Store) : Prop :=
  (∀ r ∈ s.user_inventory, ∃ u ∈ s.users, u.id = r.user_id) ∧
  (∀ ct ∈ s.coin_transactions,
    (∃ u ∈ s.users, u.id = ct.from_user_id) ∧ (∃ u ∈ s.users, u.id = ct.to_user_id))

/-- The store before anything happened: three empty tables, nothing sent. -/
def emptyPool : Pool := ⟨⟨[], [], []⟩, []⟩

/-- The identity claims a token issued to `username` carries: the username and the id the
table `users` holds for it. -/
def Pool.claimsOf (p : Pool) (username : String) : Claims :=
  ⟨username, (p.store.selectId username).getD 0⟩

/-- Scenario, step 1: "alice" registers in the empty store. -/
def aliceRegisters (jwtSecret : String) (x : Libs) (pwAlice : String) : TokenOutcome Pool :=
  (shop noFaults).GenerateToken jwtSecret x ⟨"alice", pwAlice⟩ emptyPool

/-- Scenario, step 2: alice buys a "t-shirt". -/
def aliceBuys (jwtSecret : String) (x : Libs) (pwAlice : String) : Outcome Pool :=
  (shop noFaults).BuyItem ((aliceRegisters jwtSecret x pwAlice).pool.claimsOf "alice")
    "t-shirt" (aliceRegisters jwtSecret x pwAlice).pool

/-- Scenario, step 3: "bob" registers. -/
def bobRegisters (jwtSecret : String) (x : Libs) (pwAlice pwBob : String) :
    TokenOutcome Pool :=
  (shop noFaults).GenerateToken jwtSecret x ⟨"bob", pwBob⟩ (aliceBuys jwtSecret x pwAlice).pool

/-- Scenario, step 4: alice sends bob 50 coins. -/
def aliceSends (jwtSecret : String) (x : Libs) (pwAlice pwBob : String) : Outcome Pool :=
  (shop noFaults).SendCoins ((bobRegisters jwtSecret x pwAlice pwBob).pool.claimsOf "alice")
    ⟨"bob", 50⟩ (bobRegisters jwtSecret x pwAlice pwBob).pool

/-- Libraries for the examples: a password `pw` hashes to "hash:pw", every signature is
"sig", the one token string that decodes is "abc", a token made for HS256 with the claims of
"a", and every decoded token passes the validation of claims and signature. -/
def demoLibs : Libs where
  GenerateFromPassword := fun pw => .ok ("hash:" ++ pw)
  CompareHashAndPassword := fun hash pw =>
    if hash = "hash:" ++ pw then none
    else some "crypto/bcrypt: hashedPassword is not the hash of the given password"
  Now1 := 1700000000123456789
  Now2 := 1700000000123456999
  SigningString := fun alg claims => .ok (alg ++ "." ++ claims.claims.Username)
  Sign := fun _ _ _ => .ok "sig"
  ParseUnverified := fun s =>
    if s = "abc" then .ok ⟨jwt.SigningMethodHS256, ⟨⟨none, none⟩, ⟨"a", 1⟩⟩, "HS256.a", "sig"⟩
    else .error "token contains an invalid number of segments"
  Validate := fun _ _ => none

/-! ## Runs of requests -/

/-- One request to the service together with what lies outside the program during it:
the store's behaviour, and for `/api/auth` the secret and the libraries. -/
inductive Request where
  | register (f : Faults) (jwtSecret : String) (x : Libs) (req : AuthRequest)
  | transfer (f : Faults) (user : Claims) (req : SendCoinRequest)
  | purchase (f : Faults) (user : Claims) (item : String)

/-- A request served by `shop`: the status returned and the pool afterwards. -/
def Request.run (r : Request) (p : Pool) : Int × Pool :=
  match r with
  | .register f jwtSecret x req =>
    (((shop f).GenerateToken jwtSecret x req p).status,
      ((shop f).GenerateToken jwtSecret x req p).pool)
  | .transfer f user req =>
    (((shop f).SendCoins user req p).status, ((shop f).SendCoins user req p).pool)
  | .purchase f user item =>
    (((shop f).BuyItem user item p).status, ((shop f).BuyItem user item p).pool)

/-- Requests served one after another: the pool at the end. -/
def runRequests : List Request → Pool → Pool
  | [], p => p
  | r :: rs, p => runRequests rs (r.run p).2

/-- The record a request owes the transaction log when served on `p`: for a transfer that
returns 200, the sender id, the id the recipient's name resolves to, and the amount; for
anything else, nothing. -/
def Request.record (r : Request) (p : Pool) : List TransactionRow :=
  match r with
  | .transfer _ user req =>
    if (r.run p).1 = StatusOK then
      [⟨user.UserID, (p.store.selectId req.ToUser).getD 0, req.Amount⟩]
    else []
  | _ => []

/-- The records of the successful transfers of a run, in the order of the run. -/
def records : List Request → Pool → List TransactionRow
  | [], _ => []
  | r :: rs, p => r.record p ++ records rs (r.run p).2

/-- Whether a request served on `p` is a transfer that returns 200. -/
def Request.transferred (r : Request) (p : Pool) : Bool :=
  match r with
  | .transfer _ _ _ => decide ((r.run p).1 = StatusOK)
  | _ => false

/-- The number of transfers of a run that return 200. -/
def transfers : List Request → Pool → Nat
  | [], _ => 0
  | r :: rs, p => (if r.transferred p then 1 else 0) + transfers rs (r.run p).2

/-- Whether a request served on `p` is a purchase of `item` by the user `userid` that
returns 200. -/
def Request.bought (userid : Int) (item : String) (r : Request) (p : Pool) : Bool :=
  match r with
  | .purchase _ user it =>
    decide (user.UserID = userid ∧ it = item ∧ (r.run p).1 = StatusOK)
  | _ => false

/-- The number of purchases of `item` by the user `userid` in a run that return 200. -/
def purchases (userid : Int) (item : String) : List Request → Pool → Int
  | [], _ => 0
  | r :: rs, p => (if r.bought userid item p then 1 else 0) + purchases userid item rs (r.run p).2

/-- The claims are those of a row of `users`: the id and the username go together, as in
every token `GenerateToken` issues. -/
def Store.Holds (s : Store) (user : Claims) : Prop :=
  ∃ u ∈ s.users, u.id = user.UserID ∧ u.username = user.Username

/-- The sum of all balances. -/
def Store.total (s : Store) : Int := (s.users.map (fun u => u.coins)).sum

/-- An error goes with a status other than 200 and conversely, and the status that comes
with an error is 400, 401 or 500. -/
def StatusMatchesError (err : Error) (status : Int) : Prop :=
  (err ≠ none ↔ status ≠ StatusOK) ∧
  (err ≠ none → status = 400 ∨ status = 401 ∨ status = 500)

/-- The error and the status of a ledger call go together. -/
def Outcome.Consistent {σ : Type} (r : Outcome σ) : Prop := StatusMatchesError r.err r.status

/-- The error and the status of `GenerateToken` go together. -/
def TokenOutcome.Consistent {σ : Type} (r : TokenOutcome σ) : Prop :=
  StatusMatchesError r.err r.status

/-- The error and the status of `GetInfo` go together. -/
def InfoOutcome.Consistent {σ : Type} (r : InfoOutcome σ) : Prop :=
  StatusMatchesError r.err r.status

/-- Libraries whose clock is read just before and just after the turn of a second. -/
def tickLibs : Libs :=
  { demoLibs with Now1 := 1699999999999999999, Now2 := 1700000000000000001 }

/-- Libraries whose clock reads the same instant twice, half a second into a second. -/
def stillLibs : Libs :=
  { demoLibs with Now1 := 1700000000500000000, Now2 := 1700000000500000000 }

/-- The HS512 token of the claims of "a" (id 1, issued at second 1700000000, expiring 24
hours later) under the secret "k": header, claims and signature, each in base64url. -/
def goodToken : jwt.Token :=
  ⟨jwt.SigningMethodHS512,
    ⟨⟨some 1700086400000000000, some 1700000000000000000⟩, ⟨"a", 1⟩⟩,
    "eyJhbGciOiJIUzUxMiIsInR5cCI6IkpXVCJ9.eyJleHAiOjE3MDAwODY0MDAsImlhdCI6MTcwMDAwMDAwMCwidXNlcm5hbWUiOiJhIiwidXNlcl9pZCI6MX0",
    "egvSWN5j6jkXPCHw6UffQCZOAhutU2yePnZDfxo_ne6XIrAdfCRmCiSzjztJD66DL_BcqCzebjeUw-T98Z_hUA"⟩

/-- Libraries under which the one token string that decodes is `goodToken`, and a token
passes the check of the signature only if it carries that signature and the key is "k". -/
def goodLibs : Libs where
  GenerateFromPassword := demoLibs.GenerateFromPassword
  CompareHashAndPassword := demoLibs.CompareHashAndPassword
  Now1 := demoLibs.Now1
  Now2 := demoLibs.Now2
  SigningString := demoLibs.SigningString
  Sign := demoLibs.Sign
  ParseUnverified := fun s =>
    if s = goodToken.signingString ++ "." ++ goodToken.signature then .ok goodToken
    else .error "token contains an invalid number of segments"
  Validate := fun token key =>
    if token.signature = goodToken.signature ∧ key = "k" then none
    else some "signature is invalid"

/-! ## Reads after writes -/

theorem find_map_keep_id (g : UserRow → UserRow) (hg : ∀ u, (g u).id = u.id) (k : Int)
    (l : List UserRow) :
    (l.map g).find? (fun u => u.id == k) = (l.find? (fun u => u.id == k)).map g := by
  induction l with
  | nil => rfl
  | cons u us ih =>
    simp only [List.map_cons, List.find?_cons, hg]
    cases h : (u.id == k) with
    | true => rfl
    | false => exact ih

theorem selectCoins_updateSub (s : Store) (a uid k : Int) :
    (s.updateSub a uid).selectCoins k =
      if k = uid then (s.selectCoins k).map (fun c => c - a) else s.selectCoins k := by
  unfold Store.updateSub Store.selectCoins
  rw [find_map_keep_id _ (by intro u; split <;> rfl)]
  cases h : s.users.find? (fun u => u.id == k) with
  | none => simp
  | some u =>
    have hid : u.id = k := by simpa using List.find?_some h
    by_cases hk : k = uid <;> simp [hid, hk]

theorem selectCoins_updateAdd (s : Store) (a uid k : Int) :
    (s.updateAdd a uid).selectCoins k =
      if k = uid then (s.selectCoins k).map (fun c => c + a) else s.selectCoins k := by
  unfold Store.updateAdd Store.selectCoins
  rw [find_map_keep_id _ (by intro u; split <;> rfl)]
  cases h : s.users.find? (fun u => u.id == k) with
  | none => simp
  | some u =>
    have hid : u.id = k := by simpa using List.find?_some h
    by_cases hk : k = uid <;> simp [hid, hk]

theorem selectCoins_insertTransaction (s : Store) (a b c k : Int) :
    (s.insertTransaction a b c).selectCoins k = s.selectCoins k := rfl

theorem selectCoins_upsertInventory (s : Store) (uid : Int) (item : String) (k : Int) :
    (s.upsertInventory uid item).selectCoins k = s.selectCoins k := by
  unfold Store.upsertInventory; split <;> rfl


/-! ## The paths of `SendCoins` and `BuyItem` -/

theorem SendCoins_committed (f : Faults) (p : Pool) (userid receiverID : Int) (touser : String)
    (a c : Int) (hf : ∀ st, f st = none) (hB : p.store.selectId touser = some receiverID)
    (hA : p.store.selectCoins userid = some c) (hc : a ≤ c) :
    PGXDatabase.SendCoins f userid touser a p =
      ⟨StatusOK, none, ⟨sendTables p.store userid receiverID a,
        p.log ++ sendEvents userid receiverID touser a ++ [⟨.commit, true⟩]⟩⟩ := by
  simp [PGXDatabase.SendCoins, queryRow, hf, hB, hA, not_lt.mpr hc, sendTables, sendEvents]

theorem SendCoins_short_path (f : Faults) (p : Pool) (userid receiverID : Int)
    (touser : String) (a c : Int) (h0 : f .begin = none) (h1 : f (.selectId touser) = none)
    (h2 : f (.selectCoins userid) = none) (hB : p.store.selectId touser = some receiverID)
    (hA : p.store.selectCoins userid = some c) (hc : c < a) :
    PGXDatabase.SendCoins f userid touser a p =
      ⟨StatusInternalServerError, some "недостаточно монет",
        ⟨p.store, p.log ++ [⟨.begin, true⟩, ⟨.selectId touser, true⟩,
          ⟨.selectCoins userid, true⟩, ⟨.rollback, true⟩]⟩⟩ := by
  simp [PGXDatabase.SendCoins, PGXDatabase.abort, queryRow, h0, h1, h2, hB, hA, hc]

theorem queryRow_ok {f : Faults} {st : Stmt} {rows : Option Int} {v : Int}
    (h : queryRow f st rows = .ok v) : f st = none ∧ rows = some v := by
  unfold queryRow at h
  split at h
  · cases h
  · split at h
    · cases h
    · cases h; exact ⟨by assumption, rfl⟩

theorem SendCoins_cases (f : Faults) (userid : Int) (touser : String) (a : Int) (p : Pool) :
    ((PGXDatabase.SendCoins f userid touser a p).pool.store = p.store ∧
      (PGXDatabase.SendCoins f userid touser a p).err ≠ none ∧
      (PGXDatabase.SendCoins f userid touser a p).status ≠ StatusOK) ∨
    ∃ receiverID c, p.store.selectId touser = some receiverID ∧
      p.store.selectCoins userid = some c ∧ a ≤ c ∧
      (PGXDatabase.SendCoins f userid touser a p).pool.store
        = sendTables p.store userid receiverID a ∧
      (PGXDatabase.SendCoins f userid touser a p).err = none ∧
      (PGXDatabase.SendCoins f userid touser a p).status = StatusOK := by
  unfold PGXDatabase.SendCoins
  split
  · left; simp [StatusInternalServerError, StatusOK]
  · simp only
    split
    · left; simp [PGXDatabase.abort, StatusBadRequest, StatusOK]
    · rename_i receiverID h1
      split
      · left; simp [PGXDatabase.abort, StatusInternalServerError, StatusOK]
      · rename_i c h2
        split
        · left; simp [PGXDatabase.abort, StatusInternalServerError, StatusOK]
        · rename_i hc
          split
          · left; simp [PGXDatabase.abort, StatusInternalServerError, StatusOK]
          · split
            · left; simp [PGXDatabase.abort, StatusInternalServerError, StatusOK]
            · split
              · left; simp [PGXDatabase.abort, StatusInternalServerError, StatusOK]
              · split
                · left; simp [PGXDatabase.abort, StatusInternalServerError, StatusOK]
                · right
                  exact ⟨receiverID, c, (queryRow_ok h1).2, (queryRow_ok h2).2,
                    not_lt.mp hc, rfl, rfl, rfl⟩

theorem BuyItem_cases (f : Faults) (userid price : Int) (item : String) (p : Pool) :
    ((PGXDatabase.BuyItem f userid price item p).pool.store = p.store ∧
      (PGXDatabase.BuyItem f userid price item p).err ≠ none ∧
      (PGXDatabase.BuyItem f userid price item p).status ≠ StatusOK) ∨
    ∃ c, p.store.selectCoins userid = some c ∧ price ≤ c ∧
      (PGXDatabase.BuyItem f userid price item p).pool.store
        = buyTables p.store userid price item ∧
      (PGXDatabase.BuyItem f userid price item p).err = none ∧
      (PGXDatabase.BuyItem f userid price item p).status = StatusOK := by
  unfold PGXDatabase.BuyItem
  split
  · left; simp [StatusInternalServerError, StatusOK]
  · simp only
    split
    · left; simp [PGXDatabase.abort, StatusInternalServerError, StatusOK]
    · rename_i c h2
      split
      · left; simp [PGXDatabase.abort, StatusBadRequest, StatusOK]
      · rename_i hc
        split
        · left; simp [PGXDatabase.abort, StatusInternalServerError, StatusOK]
        · split
          · left; simp [PGXDatabase.abort, StatusInternalServerError, StatusOK]
          · split
            · left; simp [PGXDatabase.abort, StatusInternalServerError, StatusOK]
            · right
              exact ⟨c, (queryRow_ok h2).2, not_lt.mp hc, rfl, rfl, rfl⟩


theorem SendCoins_failsClean (f : Faults) (userid : Int) (touser : String) (a : Int)
    (p : Pool) :
    FailsClean Stmt.isSendCoinsStep p (PGXDatabase.SendCoins f userid touser a p) := by
  unfold PGXDatabase.SendCoins
  split
  · simp [FailsClean, sentBy, Stmt.isSendCoinsStep]
  simp only
  split
  · simp [FailsClean, sentBy, PGXDatabase.abort, Stmt.isSendCoinsStep, List.append_assoc]
  split
  · simp [FailsClean, sentBy, PGXDatabase.abort, Stmt.isSendCoinsStep, List.append_assoc]
  split
  · simp [FailsClean, sentBy, PGXDatabase.abort, Stmt.isSendCoinsStep, List.append_assoc]
  split
  · simp [FailsClean, sentBy, PGXDatabase.abort, Stmt.isSendCoinsStep, List.append_assoc]
  split
  · simp [FailsClean, sentBy, PGXDatabase.abort, Stmt.isSendCoinsStep, List.append_assoc]
  split
  · simp [FailsClean, sentBy, PGXDatabase.abort, Stmt.isSendCoinsStep, List.append_assoc]
  split
  · simp [FailsClean, sentBy, Stmt.isSendCoinsStep, List.append_assoc]
  · simp [FailsClean, sentBy, Stmt.isSendCoinsStep, List.append_assoc]

theorem BuyItem_failsClean (f : Faults) (userid price : Int) (item : String) (p : Pool) :
    FailsClean Stmt.isBuyItemStep p (PGXDatabase.BuyItem f userid price item p) := by
  unfold PGXDatabase.BuyItem
  split
  · simp [FailsClean, sentBy, Stmt.isBuyItemStep]
  simp only
  split
  · simp [FailsClean, sentBy, PGXDatabase.abort, Stmt.isBuyItemStep, List.append_assoc]
  split
  · simp [FailsClean, sentBy, PGXDatabase.abort, Stmt.isBuyItemStep, List.append_assoc]
  split
  · simp [FailsClean, sentBy, PGXDatabase.abort, Stmt.isBuyItemStep, List.append_assoc]
  split
  · simp [FailsClean, sentBy, PGXDatabase.abort, Stmt.isBuyItemStep, List.append_assoc]
  split
  · simp [FailsClean, sentBy, Stmt.isBuyItemStep, List.append_assoc]
  · simp [FailsClean, sentBy, Stmt.isBuyItemStep, List.append_assoc]

/-! ## Invariants of the tables -/

theorem ids_updateSub (s : Store) (a uid : Int) :
    (s.updateSub a uid).users.map (fun u => u.id) = s.users.map (fun u => u.id) := by
  simp only [Store.updateSub, List.map_map]
  apply List.map_congr_left
  intro u _
  simp only [Function.comp]
  split <;> rfl

theorem ids_updateAdd (s : Store) (a uid : Int) :
    (s.updateAdd a uid).users.map (fun u => u.id) = s.users.map (fun u => u.id) := by
  simp only [Store.updateAdd, List.map_map]
  apply List.map_congr_left
  intro u _
  simp only [Function.comp]
  split <;> rfl

theorem users_upsertInventory (s : Store) (uid : Int) (item : String) :
    (s.upsertInventory uid item).users = s.users := by
  unfold Store.upsertInventory; split <;> rfl

theorem selectCoins_mem {s : Store} {uid c : Int} (h : s.selectCoins uid = some c) :
    ∃ u ∈ s.users, u.id = uid ∧ u.coins = c := by
  unfold Store.selectCoins at h
  cases hf : s.users.find? (fun u => u.id == uid) with
  | none => simp [hf] at h
  | some u =>
    rw [hf] at h
    refine ⟨u, List.mem_of_find?_eq_some hf, by simpa using List.find?_some hf, ?_⟩
    simpa using h

theorem keyed_unique {s : Store} (hk : s.KeyedById) {u v : UserRow} (hu : u ∈ s.users)
    (hv : v ∈ s.users) (h : u.id = v.id) : u = v :=
  List.inj_on_of_nodup_map hk hu hv h

theorem nonNeg_updateSub {s : Store} (hk : s.KeyedById) (hn : s.NonNeg) {uid a c : Int}
    (hc : s.selectCoins uid = some c) (hle : a ≤ c) : (s.updateSub a uid).NonNeg := by
  obtain ⟨u0, hu0, hid0, hc0⟩ := selectCoins_mem hc
  intro v hv
  simp only [Store.updateSub, List.mem_map] at hv
  obtain ⟨u, hu, rfl⟩ := hv
  split
  · rename_i hid
    have : u = u0 := keyed_unique hk hu hu0 (hid.trans hid0.symm)
    subst this
    simp only
    omega
  · exact hn u hu

theorem nonNeg_updateAdd {s : Store} (hn : s.NonNeg) {uid a : Int} (ha : 0 ≤ a) :
    (s.updateAdd a uid).NonNeg := by
  intro v hv
  simp only [Store.updateAdd, List.mem_map] at hv
  obtain ⟨u, hu, rfl⟩ := hv
  have := hn u hu
  split
  · simp only; omega
  · exact this

theorem keyed_sendTables {s : Store} (hk : s.KeyedById) (uid r a : Int) :
    (sendTables s uid r a).KeyedById := by
  unfold Store.KeyedById sendTables Store.insertTransaction
  simp only
  rw [ids_updateAdd, ids_updateSub]
  exact hk

theorem keyed_buyTables {s : Store} (hk : s.KeyedById) (uid price : Int) (item : String) :
    (buyTables s uid price item).KeyedById := by
  unfold Store.KeyedById buyTables
  rw [users_upsertInventory, ids_updateSub]
  exact hk

theorem nonNeg_sendTables {s : Store} (hk : s.KeyedById) (hn : s.NonNeg) {uid r a c : Int}
    (hc : s.selectCoins uid = some c) (hle : a ≤ c) (ha : 0 ≤ a) :
    (sendTables s uid r a).NonNeg := by
  have h1 := nonNeg_updateSub hk hn hc hle
  have h2 : ((s.updateSub a uid).updateAdd a r).NonNeg := nonNeg_updateAdd h1 ha
  exact h2

theorem nonNeg_buyTables {s : Store} (hk : s.KeyedById) (hn : s.NonNeg) {uid price c : Int}
    {item : String} (hc : s.selectCoins uid = some c) (hle : price ≤ c) :
    (buyTables s uid price item).NonNeg := by
  have h1 := nonNeg_updateSub hk hn hc hle
  intro u hu
  unfold buyTables at hu
  rw [users_upsertInventory] at hu
  exact h1 u hu

theorem Call_run_invariant (c : Call) (p : Pool) (hk : p.store.KeyedById)
    (hn : p.store.NonNeg) : (c.run p).pool.store.KeyedById ∧ (c.run p).pool.store.NonNeg := by
  cases c with
  | send f user req =>
    simp only [Call.run, shop, Service.SendCoins, NewService, NewPGXDatabase]
    split
    · exact ⟨hk, hn⟩
    · rename_i hpos
      split
      · exact ⟨hk, hn⟩
      · rcases SendCoins_cases f user.UserID req.ToUser req.Amount p with
          h | ⟨r, c, _, hc, hle, hs, _⟩
        · rw [h.1]; exact ⟨hk, hn⟩
        · rw [hs]
          exact ⟨keyed_sendTables hk _ _ _, nonNeg_sendTables hk hn hc hle (by omega)⟩
  | buy f user item =>
    simp only [Call.run, shop, Service.BuyItem, NewService, NewPGXDatabase]
    split
    · exact ⟨hk, hn⟩
    · rename_i price _
      rcases BuyItem_cases f user.UserID price item p with h | ⟨c, hc, hle, hs, _⟩
      · rw [h.1]; exact ⟨hk, hn⟩
      · rw [hs]
        exact ⟨keyed_buyTables hk _ _ _, nonNeg_buyTables hk hn hc hle⟩

theorem runCalls_invariant (cs : List Call) (p : Pool) (hk : p.store.KeyedById)
    (hn : p.store.NonNeg) :
    (runCalls cs p).2.store.KeyedById ∧ (runCalls cs p).2.store.NonNeg := by
  induction cs generalizing p with
  | nil => exact ⟨hk, hn⟩
  | cons c cs ih =>
    have h := Call_run_invariant c p hk hn
    exact ih (c.run p).pool h.1 h.2

/-! ## Transfer -/

/-- C1: for every store, every amount `a > 0` and distinct users A (sender id) and B
(recipient username resolving to an existing user) with A's balance `c >= a`, when no
statement fails `SendCoins` returns `(200, nil)`, A's balance becomes `c - a`, B's becomes
its old balance plus `a`, and the transaction log is the old log followed by the single
record `(A, B, a)`. -/
theorem SendCoins_success (p : Pool) (userid receiverID : Int) (touser : String)
    (a c cB : Int) (_ha : 0 < a) (hB : p.store.selectId touser = some receiverID)
    (hne : receiverID ≠ userid) (hA : p.store.selectCoins userid = some c)
    (hcB : p.store.selectCoins receiverID = some cB) (hc : a ≤ c) :
    (PGXDatabase.SendCoins noFaults userid touser a p).status = StatusOK ∧
    (PGXDatabase.SendCoins noFaults userid touser a p).err = none ∧
    (PGXDatabase.SendCoins noFaults userid touser a p).pool.store.selectCoins userid
      = some (c - a) ∧
    (PGXDatabase.SendCoins noFaults userid touser a p).pool.store.selectCoins receiverID
      = some (cB + a) ∧
    (PGXDatabase.SendCoins noFaults userid touser a p).pool.store.coin_transactions
      = p.store.coin_transactions ++ [⟨userid, receiverID, a⟩] := by
  rw [SendCoins_committed noFaults p userid receiverID touser a c (fun _ => rfl) hB hA hc]
  refine ⟨rfl, rfl, ?_, ?_, rfl⟩
  · simp [sendTables, selectCoins_insertTransaction, selectCoins_updateAdd,
      selectCoins_updateSub, hA, Ne.symm hne]
  · simp [sendTables, selectCoins_insertTransaction, selectCoins_updateAdd,
      selectCoins_updateSub, hcB, hne]

/-- Witness of C1: 100 coins sent by user 1 (balance 100, the boundary) to "b". -/
theorem SendCoins_success_witness :
    (PGXDatabase.SendCoins noFaults 1 "b" 100 demoPool).pool.store
      = ⟨[⟨1, "a", "h", 0⟩, ⟨2, "b", "h", 105⟩], [], [⟨1, 2, 100⟩]⟩ ∧
    (PGXDatabase.SendCoins noFaults 1 "b" 100 demoPool).status = StatusOK :=
  ⟨by decide,
   (SendCoins_success demoPool 1 2 "b" 100 100 5
      (by decide) (by decide) (by decide) (by decide) (by decide) (by decide)).1⟩

/-- C2: when the sender's balance `c` is strictly less than the amount (recipient
existing, the transaction begun and both reads answered), `SendCoins` fails with
"недостаточно монет" and status 500, sends no `UPDATE` or `INSERT`, and leaves the
tables, hence both balances and the transaction log, exactly as they were. -/
theorem SendCoins_insufficient_coins (f : Faults) (p : Pool) (userid receiverID : Int)
    (touser : String) (a c : Int) (h0 : f .begin = none) (h1 : f (.selectId touser) = none)
    (h2 : f (.selectCoins userid) = none) (hB : p.store.selectId touser = some receiverID)
    (hA : p.store.selectCoins userid = some c) (hc : c < a) :
    (PGXDatabase.SendCoins f userid touser a p).err = some "недостаточно монет" ∧
    (PGXDatabase.SendCoins f userid touser a p).status = StatusInternalServerError ∧
    (PGXDatabase.SendCoins f userid touser a p).pool.store = p.store ∧
    (∃ sent, (PGXDatabase.SendCoins f userid touser a p).pool.log = p.log ++ sent ∧
      ∀ e ∈ sent, e.stmt.isWrite = false) := by
  rw [SendCoins_short_path f p userid receiverID touser a c h0 h1 h2 hB hA hc]
  refine ⟨rfl, rfl, rfl, _, rfl, ?_⟩
  intro e he
  simp only [List.mem_cons, List.mem_singleton, List.not_mem_nil, or_false] at he
  rcases he with rfl | rfl | rfl | rfl <;> rfl

/-- Witness of C2: 200 coins asked of a balance of 100. -/
theorem SendCoins_insufficient_coins_witness :
    (PGXDatabase.SendCoins noFaults 1 "b" 200 demoPool).pool.store = demoPool.store :=
  (SendCoins_insufficient_coins noFaults demoPool 1 2 "b" 200 100
      rfl rfl rfl (by decide) (by decide) (by decide)).2.2.1

/-- C3: non-negative balance is an invariant of the sequential ledger. From any store
whose `users` rows have pairwise distinct ids and non-negative balances, after any finite
sequence of service-level `SendCoins` and `BuyItem` calls over the catalog of `main.go`,
each under any behaviour of the store (succeeding or failing), every balance is still
non-negative. -/
theorem balance_nonneg_invariant (cs : List Call) (p : Pool) (hk : p.store.KeyedById)
    (hn : p.store.NonNeg) : (runCalls cs p).2.store.NonNeg :=
  (runCalls_invariant cs p hk hn).2

/-- Witness of C3: a transfer of the whole balance, a refused purchase, a purchase and a
transfer whose credit the store refuses. -/
theorem balance_nonneg_invariant_witness :
    (runCalls
      [.send noFaults ⟨"a", 1⟩ ⟨"b", 100⟩, .buy noFaults ⟨"a", 1⟩ "pen",
       .buy noFaults ⟨"b", 2⟩ "cup", .send (failAt (.updateAdd 7 1)) ⟨"b", 2⟩ ⟨"a", 7⟩]
      demoPool).2.store.NonNeg :=
  balance_nonneg_invariant
    [.send noFaults ⟨"a", 1⟩ ⟨"b", 100⟩, .buy noFaults ⟨"a", 1⟩ "pen",
     .buy noFaults ⟨"b", 2⟩ "cup", .send (failAt (.updateAdd 7 1)) ⟨"b", 2⟩ ⟨"a", 7⟩]
    demoPool (by unfold Store.KeyedById; decide) (by unfold Store.NonNeg; decide)

/-- C4: transfer and purchase are all-or-nothing. Whenever a statement of `SendCoins`
inside the atomic unit (sender balance read, debit, credit, record insert, commit) or of
`BuyItem` (balance read, debit, inventory upsert, commit) fails, the call returns status
500 with a non-nil error and the committed tables after the call are those before it; and
any call that returns an error at all leaves the committed tables as they were. -/
theorem transfer_purchase_atomic (f : Faults) (p : Pool) (userid : Int) (touser : String)
    (a price : Int) (item : String) :
    FailsClean Stmt.isSendCoinsStep p (PGXDatabase.SendCoins f userid touser a p) ∧
    FailsClean Stmt.isBuyItemStep p (PGXDatabase.BuyItem f userid price item p) ∧
    ((PGXDatabase.SendCoins f userid touser a p).err ≠ none →
      (PGXDatabase.SendCoins f userid touser a p).pool.store = p.store) ∧
    ((PGXDatabase.BuyItem f userid price item p).err ≠ none →
      (PGXDatabase.BuyItem f userid price item p).pool.store = p.store) := by
  refine ⟨SendCoins_failsClean f userid touser a p, BuyItem_failsClean f userid price item p,
    ?_, ?_⟩
  · intro h
    rcases SendCoins_cases f userid touser a p with h1 | ⟨_, _, _, _, _, _, h2, _⟩
    · exact h1.1
    · exact absurd h2 h
  · intro h
    rcases BuyItem_cases f userid price item p with h1 | ⟨_, _, _, _, h2, _⟩
    · exact h1.1
    · exact absurd h2 h

/-- Witness of C4: the store refuses the credit after the debit was accepted; the call
answers 500 with an error and the committed tables are untouched. -/
theorem transfer_purchase_atomic_witness :
    (PGXDatabase.SendCoins (failAt (.updateAdd 30 2)) 1 "b" 30 demoPool).status
      = StatusInternalServerError ∧
    (PGXDatabase.SendCoins (failAt (.updateAdd 30 2)) 1 "b" 30 demoPool).err ≠ none ∧
    (PGXDatabase.SendCoins (failAt (.updateAdd 30 2)) 1 "b" 30 demoPool).pool.store
      = demoPool.store :=
  (transfer_purchase_atomic (failAt (.updateAdd 30 2)) demoPool 1 "b" 30 20 "cup").1
    ⟨.updateAdd 30 2, false⟩ (by decide) rfl rfl

/-- C5: for every caller, recipient and amount `<= 0`, service `SendCoins` returns status
400 with "количество монет должно быть положительным" and the pool it was given, whatever
the database implementation is: no database method is called, the store is unchanged. -/
theorem Service_SendCoins_invalid_amount {σ : Type} (s : Service σ) (user : Claims)
    (req : SendCoinRequest) (p : σ) (h : req.Amount ≤ 0) :
    s.SendCoins user req p =
      ⟨StatusBadRequest, some "количество монет должно быть положительным", p⟩ := by
  simp [Service.SendCoins, h]

/-- Witness of C5: amount 0 against the PGX database; not one statement reaches the
pool's log. -/
theorem Service_SendCoins_invalid_amount_witness :
    ((shop noFaults).SendCoins ⟨"a", 1⟩ ⟨"b", 0⟩
      demoPool).pool = demoPool :=
  congrArg Outcome.pool
    (Service_SendCoins_invalid_amount (shop noFaults)
      ⟨"a", 1⟩ ⟨"b", 0⟩ demoPool (by decide))

/-- C6: for every caller and amount `> 0`, service `SendCoins` with a recipient that is
empty or equal to the caller's own username returns status 400 with "неверный получатель"
and the pool it was given, whatever the database implementation is: no database method is
called. -/
theorem Service_SendCoins_invalid_recipient {σ : Type} (s : Service σ) (user : Claims)
    (req : SendCoinRequest) (p : σ) (ha : 0 < req.Amount)
    (h : req.ToUser = "" ∨ req.ToUser = user.Username) :
    s.SendCoins user req p = ⟨StatusBadRequest, some "неверный получатель", p⟩ := by
  simp [Service.SendCoins, not_le.mpr ha, h]

/-- Witness of C6: "a" sends to "a". -/
theorem Service_SendCoins_invalid_recipient_witness :
    ((shop noFaults).SendCoins ⟨"a", 1⟩ ⟨"a", 10⟩
      demoPool).pool = demoPool :=
  congrArg Outcome.pool
    (Service_SendCoins_invalid_recipient (shop noFaults)
      ⟨"a", 1⟩ ⟨"a", 10⟩ demoPool (by decide) (Or.inr rfl))

/-- C7: for every store and every recipient username that no user has, database
`SendCoins` (its transaction begun) fails with a non-nil error and status 400 after the
recipient lookup alone: the sender's balance is never read, nothing is written, and the
committed tables, hence every balance and the transaction log, are unchanged. -/
theorem SendCoins_unknown_recipient (f : Faults) (p : Pool) (userid : Int) (touser : String)
    (a : Int) (h0 : f .begin = none) (hB : ∀ u ∈ p.store.users, u.username ≠ touser) :
    (PGXDatabase.SendCoins f userid touser a p).err ≠ none ∧
    (PGXDatabase.SendCoins f userid touser a p).status = StatusBadRequest ∧
    (PGXDatabase.SendCoins f userid touser a p).pool.store = p.store ∧
    (PGXDatabase.SendCoins f userid touser a p).pool.log
      = p.log ++ [⟨.begin, true⟩, ⟨.selectId touser, false⟩, ⟨.rollback, true⟩] := by
  have hnone : p.store.selectId touser = none := by
    unfold Store.selectId
    rw [Option.map_eq_none', List.find?_eq_none]
    intro u hu
    simpa using hB u hu
  cases hf : f (.selectId touser) <;>
    simp [PGXDatabase.SendCoins, PGXDatabase.abort, queryRow, h0, hnone, hf]

/-- Witness of C7: nobody is called "zed". -/
theorem SendCoins_unknown_recipient_witness :
    (PGXDatabase.SendCoins noFaults 1 "zed" 10 demoPool).status = StatusBadRequest ∧
    (PGXDatabase.SendCoins noFaults 1 "zed" 10 demoPool).pool.store = demoPool.store :=
  ⟨(SendCoins_unknown_recipient noFaults demoPool 1 "zed" 10 rfl (by decide)).2.1,
   by decide⟩


theorem BuyItem_committed (f : Faults) (p : Pool) (userid price : Int) (item : String)
    (c : Int) (hf : ∀ st, f st = none) (hA : p.store.selectCoins userid = some c)
    (hc : price ≤ c) :
    PGXDatabase.BuyItem f userid price item p =
      ⟨StatusOK, none, ⟨buyTables p.store userid price item,
        p.log ++ [⟨.begin, true⟩, ⟨.selectCoins userid, true⟩, ⟨.updateSub price userid, true⟩,
          ⟨.upsertInventory userid item, true⟩, ⟨.commit, true⟩]⟩⟩ := by
  simp [PGXDatabase.BuyItem, queryRow, hf, hA, not_lt.mpr hc, buyTables]

theorem BuyItem_short_path (f : Faults) (p : Pool) (userid price : Int) (item : String)
    (c : Int) (h0 : f .begin = none) (h1 : f (.selectCoins userid) = none)
    (hA : p.store.selectCoins userid = some c) (hc : c < price) :
    PGXDatabase.BuyItem f userid price item p =
      ⟨StatusBadRequest, some "недостаточно монет для покупки",
        ⟨p.store, p.log ++ [⟨.begin, true⟩, ⟨.selectCoins userid, true⟩,
          ⟨.rollback, true⟩]⟩⟩ := by
  simp [PGXDatabase.BuyItem, PGXDatabase.abort, queryRow, h0, h1, hA, hc]

theorem find_map_keep_isFor (g : InventoryRow → InventoryRow) (uid : Int) (item : String)
    (hg : ∀ r, (g r).isFor uid item = r.isFor uid item) (l : List InventoryRow) :
    (l.map g).find? (InventoryRow.isFor uid item)
      = (l.find? (InventoryRow.isFor uid item)).map g := by
  induction l with
  | nil => rfl
  | cons r rs ih =>
    simp only [List.map_cons, List.find?_cons, hg]
    cases h : r.isFor uid item with
    | true => rfl
    | false => exact ih

theorem bump_keeps_isFor (uid : Int) (item : String) (r : InventoryRow) :
    (if r.isFor uid item then ({ r with quantity := r.quantity + 1 } : InventoryRow)
      else r).isFor uid item = r.isFor uid item := by
  split <;> rfl

theorem quantity_upsertInventory (s : Store) (uid : Int) (item : String) :
    (s.upsertInventory uid item).quantity uid item =
      some (match s.quantity uid item with
        | none => 1
        | some q => q + 1) := by
  unfold Store.upsertInventory Store.quantity
  split
  · rename_i hany
    simp only
    rw [find_map_keep_isFor _ uid item (bump_keeps_isFor uid item)]
    cases hf : s.user_inventory.find? (InventoryRow.isFor uid item) with
    | none =>
      rw [List.find?_eq_none] at hf
      rw [List.any_eq_true] at hany
      obtain ⟨r, hr, hr2⟩ := hany
      exact absurd hr2 (hf r hr)
    | some r =>
      have hr : r.isFor uid item = true := List.find?_some hf
      simp [hr]
  · rename_i hany
    have hnone : s.user_inventory.find? (InventoryRow.isFor uid item) = none := by
      rw [List.find?_eq_none]
      intro r hr hr2
      exact hany (List.any_eq_true.mpr ⟨r, hr, hr2⟩)
    simp [List.find?_append, hnone, InventoryRow.isFor]

theorem entries_upsertInventory (s : Store) (uid : Int) (item : String) :
    (s.upsertInventory uid item).entries uid item =
      if s.entries uid item = [] then [⟨uid, item, 1⟩]
      else (s.entries uid item).map (fun r => { r with quantity := r.quantity + 1 }) := by
  unfold Store.upsertInventory Store.entries
  split
  · rename_i hany
    have hne : s.user_inventory.filter (InventoryRow.isFor uid item) ≠ [] := by
      rw [Ne, List.filter_eq_nil_iff]
      rw [List.any_eq_true] at hany
      obtain ⟨r, hr, hr2⟩ := hany
      intro h
      exact h r hr hr2
    rw [if_neg hne]
    simp only
    rw [List.filter_map]
    have hcomp : (InventoryRow.isFor uid item ∘ fun r =>
        if r.isFor uid item then ({ r with quantity := r.quantity + 1 } : InventoryRow) else r)
        = InventoryRow.isFor uid item := by
      funext r; exact bump_keeps_isFor uid item r
    rw [hcomp]
    apply List.map_congr_left
    intro r hr
    have : r.isFor uid item = true := (List.mem_filter.mp hr).2
    simp [this]
  · rename_i hany
    have hnil : s.user_inventory.filter (InventoryRow.isFor uid item) = [] := by
      rw [List.filter_eq_nil_iff]
      intro r hr hr2
      exact hany (List.any_eq_true.mpr ⟨r, hr, hr2⟩)
    simp [hnil, InventoryRow.isFor]

theorem merchItems_pos {item : String} {price : Int}
    (h : merchItems.lookup item = some price) : 0 < price := by
  simp only [merchItems, List.lookup] at h
  repeat' split at h
  all_goals simp at h
  all_goals omega


theorem selectCoins_buyTables (s : Store) (uid price : Int) (item : String) :
    (buyTables s uid price item).selectCoins uid
      = (s.selectCoins uid).map (fun c => c - price) := by
  unfold buyTables
  rw [selectCoins_upsertInventory, selectCoins_updateSub, if_pos rfl]

theorem entries_buyTables (s : Store) (uid price : Int) (item : String) :
    (buyTables s uid price item).entries uid item =
      if s.entries uid item = [] then [⟨uid, item, 1⟩]
      else (s.entries uid item).map (fun r => { r with quantity := r.quantity + 1 }) := by
  unfold buyTables
  rw [entries_upsertInventory]
  rfl

theorem quantity_buyTables (s : Store) (uid price : Int) (item : String) :
    (buyTables s uid price item).quantity uid item =
      some (match s.quantity uid item with
        | none => 1
        | some q => q + 1) := by
  unfold buyTables
  rw [quantity_upsertInventory]
  rfl

theorem shop_BuyItem_eq (f : Faults) (user : Claims) (item : String) (price : Int) (p : Pool)
    (hcat : merchItems.lookup item = some price) :
    (shop f).BuyItem user item p = PGXDatabase.BuyItem f user.UserID price item p := by
  simp [shop, NewService, NewPGXDatabase, Service.BuyItem, hcat]

theorem buy_step (user : Claims) (item : String) (price c : Int) (p : Pool)
    (hcat : merchItems.lookup item = some price)
    (hA : p.store.selectCoins user.UserID = some c) (hc : price ≤ c) :
    Call.run (.buy noFaults user item) p
      = ⟨StatusOK, none, ⟨buyTables p.store user.UserID price item,
          p.log ++ [⟨.begin, true⟩, ⟨.selectCoins user.UserID, true⟩,
            ⟨.updateSub price user.UserID, true⟩, ⟨.upsertInventory user.UserID item, true⟩,
            ⟨.commit, true⟩]⟩⟩ := by
  simp only [Call.run]
  rw [shop_BuyItem_eq noFaults user item price p hcat]
  exact BuyItem_committed noFaults p user.UserID price item c (fun _ => rfl) hA hc

theorem buy_iterate (user : Claims) (item : String) (price : Int)
    (hcat : merchItems.lookup item = some price) (m : Nat) :
    ∀ (p : Pool) (c k : Int), p.store.selectCoins user.UserID = some c → m * price ≤ c →
      p.store.entries user.UserID item = [⟨user.UserID, item, k⟩] →
      (runCalls (List.replicate m (.buy noFaults user item)) p).1 = List.replicate m StatusOK ∧
      (runCalls (List.replicate m (.buy noFaults user item)) p).2.store.entries user.UserID item
        = [⟨user.UserID, item, k + m⟩] ∧
      (runCalls (List.replicate m (.buy noFaults user item)) p).2.store.selectCoins user.UserID
        = some (c - m * price) := by
  have hpos := merchItems_pos hcat
  induction m with
  | zero => intro p c k hA _ he; simp [runCalls, hA, he]
  | succ m ih =>
    intro p c k hA hc he
    have hm : (0 : Int) ≤ m * price := mul_nonneg (Int.ofNat_nonneg m) (le_of_lt hpos)
    have hc1 : price ≤ c := by push_cast at hc; nlinarith
    have hrun := buy_step user item price c p hcat hA hc1
    have hA2 : (buyTables p.store user.UserID price item).selectCoins user.UserID
        = some (c - price) := by rw [selectCoins_buyTables, hA]; rfl
    have he2 : (buyTables p.store user.UserID price item).entries user.UserID item
        = [⟨user.UserID, item, k + 1⟩] := by rw [entries_buyTables, he]; simp
    have hc2 : (m : Int) * price ≤ c - price := by push_cast at hc; nlinarith
    obtain ⟨h1, h2, h3⟩ := ih ⟨buyTables p.store user.UserID price item, _⟩ (c - price) (k + 1)
      hA2 hc2 he2
    simp only [List.replicate_succ, runCalls, hrun]
    refine ⟨by rw [h1], ?_, ?_⟩
    · rw [h2]; push_cast; congr 2; ring
    · rw [h3]; push_cast; congr 1; ring

/-! ## Purchase -/

/-- C8: for every store, user and catalog item of price `price`, when the user's balance
`c` is at least `price` and no statement fails, service `BuyItem` is the database
`BuyItem` called with the catalog price, it returns `(200, nil)`, the balance becomes
`c - price`, and the quantity of `(user, item)` is 1 if there was no entry and the old
quantity plus 1 if there was. -/
theorem Service_BuyItem_success (p : Pool) (user : Claims) (item : String) (price c : Int)
    (hcat : merchItems.lookup item = some price)
    (hA : p.store.selectCoins user.UserID = some c) (hc : price ≤ c) :
    (shop noFaults).BuyItem user item p
      = PGXDatabase.BuyItem noFaults user.UserID price item p ∧
    ((shop noFaults).BuyItem user item p).status = StatusOK ∧
    ((shop noFaults).BuyItem user item p).err = none ∧
    ((shop noFaults).BuyItem user item p).pool.store.selectCoins user.UserID
      = some (c - price) ∧
    ((shop noFaults).BuyItem user item p).pool.store.quantity user.UserID item
      = some (match p.store.quantity user.UserID item with
        | none => 1
        | some q => q + 1) := by
  rw [shop_BuyItem_eq noFaults user item price p hcat,
    BuyItem_committed noFaults p user.UserID price item c (fun _ => rfl) hA hc]
  refine ⟨rfl, rfl, rfl, ?_, ?_⟩
  · simp only; rw [selectCoins_buyTables, hA]; rfl
  · simp only; rw [quantity_buyTables]

/-- Witness of C8: "a" (100 coins) buys a "t-shirt" (80). -/
theorem Service_BuyItem_success_witness :
    ((shop noFaults).BuyItem ⟨"a", 1⟩ "t-shirt" demoPool).pool.store
      = ⟨[⟨1, "a", "h", 20⟩, ⟨2, "b", "h", 5⟩], [⟨1, "t-shirt", 1⟩], []⟩ ∧
    ((shop noFaults).BuyItem ⟨"a", 1⟩ "t-shirt" demoPool).status = StatusOK :=
  ⟨by decide,
   (Service_BuyItem_success demoPool ⟨"a", 1⟩ "t-shirt" 80 100 (by decide) (by decide)
      (by decide)).2.1⟩

/-- C9: for every user who holds no entry for a catalog item and whose balance covers
`n >= 1` times its price, `n` purchases of the item in sequence all return 200 and leave
exactly one inventory entry for `(user, item)`, of quantity `n`; with `n = 2`: one entry of
quantity 2, never two entries of quantity 1. -/
theorem repeated_purchase_single_entry (n : Nat) (p : Pool) (user : Claims) (item : String)
    (price c : Int) (hn : 1 ≤ n) (hcat : merchItems.lookup item = some price)
    (hnone : p.store.entries user.UserID item = [])
    (hA : p.store.selectCoins user.UserID = some c) (hc : n * price ≤ c) :
    (runCalls (List.replicate n (.buy noFaults user item)) p).1 = List.replicate n StatusOK ∧
    (runCalls (List.replicate n (.buy noFaults user item)) p).2.store.entries user.UserID item
      = [⟨user.UserID, item, n⟩] := by
  obtain ⟨m, rfl⟩ : ∃ m, n = m + 1 := ⟨n - 1, by omega⟩
  have hpos := merchItems_pos hcat
  have hm : (0 : Int) ≤ m * price := mul_nonneg (Int.ofNat_nonneg m) (le_of_lt hpos)
  have hc1 : price ≤ c := by push_cast at hc; nlinarith
  have hrun := buy_step user item price c p hcat hA hc1
  have hA2 : (buyTables p.store user.UserID price item).selectCoins user.UserID
      = some (c - price) := by rw [selectCoins_buyTables, hA]; rfl
  have he2 : (buyTables p.store user.UserID price item).entries user.UserID item
      = [⟨user.UserID, item, 1⟩] := by rw [entries_buyTables, hnone]; simp
  have hc2 : (m : Int) * price ≤ c - price := by push_cast at hc; nlinarith
  obtain ⟨h1, h2, _⟩ := buy_iterate user item price hcat m
    ⟨buyTables p.store user.UserID price item, _⟩ (c - price) 1 hA2 hc2 he2
  simp only [List.replicate_succ, runCalls, hrun]
  refine ⟨by rw [h1], ?_⟩
  rw [h2]; push_cast; congr 2; ring

/-- Witness of C9: "a" (100 coins) buys a "cup" (20) twice. -/
theorem repeated_purchase_single_entry_witness :
    (runCalls (List.replicate 2 (.buy noFaults ⟨"a", 1⟩ "cup")) demoPool).2.store.user_inventory
      = [⟨1, "cup", 2⟩] ∧
    (runCalls (List.replicate 2 (.buy noFaults ⟨"a", 1⟩ "cup")) demoPool).1
      = [StatusOK, StatusOK] :=
  ⟨by decide,
   (repeated_purchase_single_entry 2 demoPool ⟨"a", 1⟩ "cup" 20 100 (by decide) (by decide)
      (by decide) (by decide) (by decide)).1⟩

/-- C10: when the user's balance `c` is strictly less than the price (the transaction
begun and the balance read answered), database `BuyItem` fails with
"недостаточно монет для покупки" and status 400, sends no `UPDATE` or `INSERT`, and
leaves the tables, hence the balance and the inventory, unchanged. -/
theorem BuyItem_insufficient_coins (f : Faults) (p : Pool) (userid price : Int)
    (item : String) (c : Int) (h0 : f .begin = none) (h1 : f (.selectCoins userid) = none)
    (hA : p.store.selectCoins userid = some c) (hc : c < price) :
    (PGXDatabase.BuyItem f userid price item p).err = some "недостаточно монет для покупки" ∧
    (PGXDatabase.BuyItem f userid price item p).status = StatusBadRequest ∧
    (PGXDatabase.BuyItem f userid price item p).pool.store = p.store ∧
    (∃ sent, (PGXDatabase.BuyItem f userid price item p).pool.log = p.log ++ sent ∧
      ∀ e ∈ sent, e.stmt.isWrite = false) := by
  rw [BuyItem_short_path f p userid price item c h0 h1 hA hc]
  refine ⟨rfl, rfl, rfl, _, rfl, ?_⟩
  intro e he
  simp only [List.mem_cons, List.mem_singleton, List.not_mem_nil, or_false] at he
  rcases he with rfl | rfl | rfl <;> rfl

/-- Witness of C10: a price of 150 against a balance of 100. -/
theorem BuyItem_insufficient_coins_witness :
    (PGXDatabase.BuyItem noFaults 1 150 "potion" demoPool).pool.store = demoPool.store ∧
    (PGXDatabase.BuyItem noFaults 1 150 "potion" demoPool).status = StatusBadRequest :=
  ⟨(BuyItem_insufficient_coins noFaults demoPool 1 150 "potion" 100 rfl rfl (by decide)
      (by decide)).2.2.1, by decide⟩


/-! ## Validation in the service layer -/

theorem lookup_eq_none_of_not_key (m : List (String × Int)) (item : String)
    (h : item ∉ m.map Prod.fst) : m.lookup item = none := by
  induction m with
  | nil => rfl
  | cons kv m ih =>
    obtain ⟨k, v⟩ := kv
    simp only [List.map_cons, List.mem_cons, not_or] at h
    have hk : (item == k) = false := by simpa using h.1
    simp only [List.lookup, hk]
    exact ih h.2

/-- C11: for every item name that is not a key of the catalog, service `BuyItem` returns
"товар не найден" with status 500 and the pool it was given, whatever the database
implementation is: no database method is called, no balance or inventory changes. -/
theorem Service_BuyItem_item_not_found {σ : Type} (s : Service σ) (user : Claims)
    (item : String) (p : σ) (h : item ∉ s.merchItems.map Prod.fst) :
    s.BuyItem user item p = ⟨StatusInternalServerError, some "товар не найден", p⟩ := by
  simp [Service.BuyItem, lookup_eq_none_of_not_key s.merchItems item h]

/-- Witness of C11: the catalog of `main.go` has no "sword". -/
theorem Service_BuyItem_item_not_found_witness :
    ((shop noFaults).BuyItem ⟨"a", 1⟩ "sword" demoPool).pool = demoPool :=
  congrArg Outcome.pool
    (Service_BuyItem_item_not_found (shop noFaults) ⟨"a", 1⟩ "sword" demoPool (by decide))

/-- Counterexample to C12 as stated: "sword" is absent from the catalog, and the error
comes back with status 500, which is not a client-error status. -/
theorem absent_item_status_not_4xx :
    "sword" ∉ merchItems.map Prod.fst ∧
    ((shop noFaults).BuyItem ⟨"a", 1⟩ "sword" demoPool).err = some "товар не найден" ∧
    ¬ (400 ≤ ((shop noFaults).BuyItem ⟨"a", 1⟩ "sword" demoPool).status ∧
       ((shop noFaults).BuyItem ⟨"a", 1⟩ "sword" demoPool).status < 500) := by
  decide

/-- C12, amended: every validation error of the service layer is detected before any call
to the database, so before any store mutation: the pool comes back as it was given,
whatever the database implementation is. A non-positive amount and an empty or self
recipient are returned with status 400; an item absent from the catalog is returned with
status 500. -/
theorem validation_before_mutation {σ : Type} (s : Service σ) (user : Claims)
    (req : SendCoinRequest) (item : String) (p : σ) :
    (req.Amount ≤ 0 →
      (s.SendCoins user req p).status = StatusBadRequest ∧
      (s.SendCoins user req p).err ≠ none ∧ (s.SendCoins user req p).pool = p) ∧
    (0 < req.Amount → (req.ToUser = "" ∨ req.ToUser = user.Username) →
      (s.SendCoins user req p).status = StatusBadRequest ∧
      (s.SendCoins user req p).err ≠ none ∧ (s.SendCoins user req p).pool = p) ∧
    (item ∉ s.merchItems.map Prod.fst →
      (s.BuyItem user item p).status = StatusInternalServerError ∧
      (s.BuyItem user item p).err ≠ none ∧ (s.BuyItem user item p).pool = p) := by
  refine ⟨?_, ?_, ?_⟩
  · intro h
    simp [Service.SendCoins, h]
  · intro ha h
    simp [Service.SendCoins, not_le.mpr ha, h]
  · intro h
    simp [Service.BuyItem, lookup_eq_none_of_not_key s.merchItems item h]

/-- Witness of C12, amended: amount 0, recipient "a" for the caller "a", and item
"sword". -/
theorem validation_before_mutation_witness :
    ((shop noFaults).SendCoins ⟨"a", 1⟩ ⟨"b", 0⟩ demoPool).status = StatusBadRequest ∧
    ((shop noFaults).SendCoins ⟨"a", 1⟩ ⟨"a", 5⟩ demoPool).status = StatusBadRequest ∧
    ((shop noFaults).BuyItem ⟨"a", 1⟩ "sword" demoPool).pool = demoPool :=
  ⟨((validation_before_mutation (shop noFaults) ⟨"a", 1⟩ ⟨"b", 0⟩ "sword" demoPool).1
      (by decide)).1,
   ((validation_before_mutation (shop noFaults) ⟨"a", 1⟩ ⟨"a", 5⟩ "sword" demoPool).2.1
      (by decide) (Or.inr rfl)).1,
   ((validation_before_mutation (shop noFaults) ⟨"a", 1⟩ ⟨"b", 0⟩ "sword" demoPool).2.2
      (by decide)).2.2⟩


/-! ## Issuing tokens -/

theorem SignedString_ne_empty {x : Libs} {alg : String} {claims : Payload} {key t : String}
    (h : jwt.SignedString x alg claims key = .ok t) : t ≠ "" := by
  unfold jwt.SignedString at h
  split at h
  · cases h
  · split at h
    · cases h
    · rename_i sstr _ sig _
      cases h
      intro hempty
      have hd := congrArg String.data hempty
      simp at hd

/-- C15: for every known username (the lookup returns no error) and every password that
does not verify against the stored hash, `GenerateToken` returns the empty token, status
401 and "неверный пароль", with the pool as the lookup left it; nothing is signed. -/
theorem GenerateToken_incorrect_password {σ : Type} (s : Service σ) (jwtSecret : String)
    (x : Libs) (req : AuthRequest) (p : σ)
    (hknown : (s.database.SelectIDPassHashQuery req.Username p).err = none)
    (hwrong : x.CompareHashAndPassword
      (s.database.SelectIDPassHashQuery req.Username p).val.2 req.Password ≠ none) :
    s.GenerateToken jwtSecret x req p =
      ⟨"", StatusUnauthorized, some "неверный пароль",
        (s.database.SelectIDPassHashQuery req.Username p).pool⟩ := by
  unfold Service.GenerateToken Service.resolveUser
  simp only [hknown]
  cases hc : x.CompareHashAndPassword
      (s.database.SelectIDPassHashQuery req.Username p).val.2 req.Password with
  | none => exact absurd hc hwrong
  | some e => rfl

/-- Witness of C15: "a" is known with the hash "h", which is not the hash of "guess". -/
theorem GenerateToken_incorrect_password_witness :
    ((shop noFaults).GenerateToken "k" demoLibs ⟨"a", "guess"⟩ demoPool).status
      = StatusUnauthorized ∧
    ((shop noFaults).GenerateToken "k" demoLibs ⟨"a", "guess"⟩ demoPool).token = "" :=
  ⟨congrArg TokenOutcome.status
      (GenerateToken_incorrect_password (shop noFaults) "k" demoLibs ⟨"a", "guess"⟩ demoPool
        (by decide) (by decide)),
   by decide⟩

/-- C14: on both successful paths of `GenerateToken` the claims that are signed carry the
resolved user id and the requested username. For a known user whose password verifies, and
for a new user whose password hashes and whose insert succeeds, whenever signing with
HS512 the claims `(req.Username, id)`, with `id` the id the lookup, respectively the
insert, returned, yields a token `t`, `GenerateToken` returns `t` with status 200 and no
error, and `t` is not empty. -/
theorem GenerateToken_claims {σ : Type} (s : Service σ) (jwtSecret : String) (x : Libs)
    (req : AuthRequest) (p : σ) :
    ((s.database.SelectIDPassHashQuery req.Username p).err = none →
      x.CompareHashAndPassword
        (s.database.SelectIDPassHashQuery req.Username p).val.2 req.Password = none →
      ∀ t, jwt.SignedString x jwt.SigningMethodHS512
          ⟨⟨some (jwt.NewNumericDate (x.Now1 + TokenExpireDuration)),
              some (jwt.NewNumericDate x.Now2)⟩,
            ⟨req.Username, (s.database.SelectIDPassHashQuery req.Username p).val.1⟩⟩
          jwtSecret = .ok t →
        s.GenerateToken jwtSecret x req p =
          ⟨t, StatusOK, none, (s.database.SelectIDPassHashQuery req.Username p).pool⟩ ∧
        t ≠ "") ∧
    ((s.database.SelectIDPassHashQuery req.Username p).err ≠ none →
      ∀ hashed, x.GenerateFromPassword req.Password = .ok hashed →
      (s.database.InsertUserQuery req.Username hashed
        (s.database.SelectIDPassHashQuery req.Username p).pool).err = none →
      ∀ t, jwt.SignedString x jwt.SigningMethodHS512
          ⟨⟨some (jwt.NewNumericDate (x.Now1 + TokenExpireDuration)),
              some (jwt.NewNumericDate x.Now2)⟩,
            ⟨req.Username, (s.database.InsertUserQuery req.Username hashed
              (s.database.SelectIDPassHashQuery req.Username p).pool).val⟩⟩
          jwtSecret = .ok t →
        s.GenerateToken jwtSecret x req p =
          ⟨t, StatusOK, none, (s.database.InsertUserQuery req.Username hashed
            (s.database.SelectIDPassHashQuery req.Username p).pool).pool⟩ ∧
        t ≠ "") := by
  refine ⟨?_, ?_⟩
  · intro hknown hpw t ht
    refine ⟨?_, SignedString_ne_empty ht⟩
    simp only [Service.GenerateToken, Service.resolveUser, Service.tokenClaims, hknown, hpw, ht]
  · intro hnew hashed hh hins t ht
    refine ⟨?_, SignedString_ne_empty ht⟩
    cases he : (s.database.SelectIDPassHashQuery req.Username p).err with
    | none => exact absurd he hnew
    | some e =>
      simp only [Service.GenerateToken, Service.resolveUser, Service.tokenClaims, he, hh, hins,
        ht]

/-- Witness of C14: "a" logs in with the password whose hash the store holds, and "zed"
registers; each gets a token that is not empty. -/
theorem GenerateToken_claims_witness :
    ((shop noFaults).GenerateToken "k" demoLibs ⟨"a", "pw"⟩
        ⟨⟨[⟨1, "a", "hash:pw", 100⟩], [], []⟩, []⟩).token = "HS512.a.sig" ∧
    ((shop noFaults).GenerateToken "k" demoLibs ⟨"zed", "pw"⟩ demoPool).token ≠ "" :=
  ⟨congrArg TokenOutcome.token
      (((GenerateToken_claims (shop noFaults) "k" demoLibs ⟨"a", "pw"⟩
        ⟨⟨[⟨1, "a", "hash:pw", 100⟩], [], []⟩, []⟩).1 (by decide) (by decide)
        "HS512.a.sig" rfl).1),
   by decide⟩


/-! ## Account info -/

/-- C20: `GetInfo` performs the four reads in the order balance, inventory, received
history, sent history, each on the pool the one before left (`c`, `i`, `r`, `t` are the
four replies). If all succeed it returns status 200 and the `InfoResponse` made of exactly
the four values read. If a read fails it returns the zero `InfoResponse`, status 500 and
that read's error, with the pool as that read left it: no later read is performed. This
holds whatever the database implementation is. -/
theorem GetInfo_reads_in_order {σ : Type} (s : Service σ) (user : Claims) (p : σ)
    (c : Reply Int σ) (i : Reply (List InventoryItem) σ)
    (r t : Reply (List TransactionRecord) σ)
    (hc : c = s.database.SelectCoinsQuery user.UserID p)
    (hi : i = s.database.SelectUserItemsQuery user.UserID c.pool)
    (hr : r = s.database.SelectReceivedMoneyQuery user.UserID i.pool)
    (ht : t = s.database.SelectSentMoneyQuery user.UserID r.pool) :
    (∀ e, c.err = some e →
      s.GetInfo user p = ⟨InfoResponse.zero, StatusInternalServerError, some e, c.pool⟩) ∧
    (c.err = none → ∀ e, i.err = some e →
      s.GetInfo user p = ⟨InfoResponse.zero, StatusInternalServerError, some e, i.pool⟩) ∧
    (c.err = none → i.err = none → ∀ e, r.err = some e →
      s.GetInfo user p = ⟨InfoResponse.zero, StatusInternalServerError, some e, r.pool⟩) ∧
    (c.err = none → i.err = none → r.err = none → ∀ e, t.err = some e →
      s.GetInfo user p = ⟨InfoResponse.zero, StatusInternalServerError, some e, t.pool⟩) ∧
    (c.err = none → i.err = none → r.err = none → t.err = none →
      s.GetInfo user p = ⟨⟨⟨r.val, t.val⟩, i.val, c.val⟩, StatusOK, none, t.pool⟩) := by
  subst hc hi hr ht
  refine ⟨?_, ?_, ?_, ?_, ?_⟩
  · intro e h1
    simp only [Service.GetInfo, h1]
  · intro h1 e h2
    simp only [Service.GetInfo, h1, h2]
  · intro h1 h2 e h3
    simp only [Service.GetInfo, h1, h2, h3]
  · intro h1 h2 h3 e h4
    simp only [Service.GetInfo, h1, h2, h3, h4]
  · intro h1 h2 h3 h4
    simp only [Service.GetInfo, h1, h2, h3, h4]

/-- Witness of C20: the store refuses the inventory read of user 1; the log holds the
balance read and the refused inventory read, and neither history read. -/
theorem GetInfo_reads_in_order_witness :
    ((shop (failAt (.selectItems 1))).GetInfo ⟨"a", 1⟩ demoPool).info = InfoResponse.zero ∧
    ((shop (failAt (.selectItems 1))).GetInfo ⟨"a", 1⟩ demoPool).status
      = StatusInternalServerError ∧
    ((shop (failAt (.selectItems 1))).GetInfo ⟨"a", 1⟩ demoPool).pool.log
      = [⟨.selectCoins 1, true⟩, ⟨.selectItems 1, false⟩] :=
  ⟨congrArg InfoOutcome.info
      ((GetInfo_reads_in_order (shop (failAt (.selectItems 1))) ⟨"a", 1⟩ demoPool
        _ _ _ _ rfl rfl rfl rfl).2.1 (by decide) "store failure" (by decide)),
   by decide, by decide⟩

/-! ## The access gate -/

theorem resolveUser_error_status {σ : Type} {s : Service σ} {x : Libs} {req : AuthRequest}
    {p : σ} {out : TokenOutcome σ} (h : Service.resolveUser s x req p = .error out) :
    out.status ≠ StatusOK := by
  unfold Service.resolveUser at h
  simp only at h
  split at h
  · split at h
    · cases h; simp [StatusInternalServerError, StatusOK]
    · split at h
      · cases h; simp [StatusInternalServerError, StatusOK]
      · cases h
  · split at h
    · cases h; simp [StatusUnauthorized, StatusOK]
    · cases h

theorem Split_empty : strings.Split "" ' ' = [""] := by decide

/-- C16: for every token whose declared signing algorithm is anything other than HS512,
the key function returns an error, so `JwtMiddleware` answers 401 and does not invoke the
next handler, whatever the validation of the claims and of the signature would say.
Conversely the key function accepts HS512, and a token `GenerateToken` returns with status
200 is the result of signing with exactly HS512. -/
theorem JwtMiddleware_wrong_signing_method (m : Middleware) (x : Libs)
    (next : Claims → Response) (authHeader tokenStr : String) (token : jwt.Token)
    {σ : Type} (s : Service σ) (req : AuthRequest) (p : σ)
    (hparts : strings.Split authHeader ' ' = ["Bearer", tokenStr])
    (hdecoded : x.ParseUnverified tokenStr = .ok token) (halg : token.alg ≠ "HS512") :
    m.keyFunc token = .error ("неправильный метод подписи: " ++ token.alg) ∧
    (m.JwtMiddleware x next authHeader).response
      = http.Error ("Неправибльный токен: " ++ ("неправильный метод подписи: " ++ token.alg))
          StatusUnauthorized ∧
    (m.JwtMiddleware x next authHeader).response.status = 401 ∧
    (m.JwtMiddleware x next authHeader).forwarded = none ∧
    (∀ token2 : jwt.Token, token2.alg = "HS512" → m.keyFunc token2 = .ok m.jwtSecret) ∧
    ((s.GenerateToken m.jwtSecret x req p).status = StatusOK →
      ∃ userID, jwt.SignedString x "HS512"
        ⟨⟨some (jwt.NewNumericDate (x.Now1 + TokenExpireDuration)),
            some (jwt.NewNumericDate x.Now2)⟩, ⟨req.Username, userID⟩⟩ m.jwtSecret
        = .ok (s.GenerateToken m.jwtSecret x req p).token) := by
  have hkey : m.keyFunc token = .error ("неправильный метод подписи: " ++ token.alg) := by
    simp [Middleware.keyFunc, jwt.SigningMethodHS512, halg]
  have hne : authHeader ≠ "" := by
    intro h
    rw [h, Split_empty] at hparts
    simp at hparts
  have hserved : m.JwtMiddleware x next authHeader
      = ⟨http.Error ("Неправибльный токен: " ++ ("неправильный метод подписи: " ++ token.alg))
          StatusUnauthorized, some tokenStr, none⟩ := by
    simp [Middleware.JwtMiddleware, hne, hparts, jwt.ParseWithClaims, hdecoded, hkey]
  refine ⟨hkey, by rw [hserved], by rw [hserved]; rfl, by rw [hserved], ?_, ?_⟩
  · intro token2 h2
    simp [Middleware.keyFunc, jwt.SigningMethodHS512, h2]
  · intro hok
    unfold Service.GenerateToken at hok ⊢
    cases hres : Service.resolveUser s x req p with
    | error out =>
      rw [hres] at hok
      exact absurd hok (resolveUser_error_status hres)
    | ok v =>
      obtain ⟨userID, q⟩ := v
      rw [hres] at hok
      simp only at hok ⊢
      refine ⟨userID, ?_⟩
      cases hs : jwt.SignedString x jwt.SigningMethodHS512
          (Service.tokenClaims x userID req.Username) m.jwtSecret with
      | error e => rw [hs] at hok; simp [StatusInternalServerError, StatusOK] at hok
      | ok tokenStr2 =>
        simp only [Service.tokenClaims, jwt.SigningMethodHS512] at hs
        simp only [hs]

/-- Witness of C16: "abc" decodes to a token made for HS256 that passes every other
check; the gate answers 401 and `next` is not invoked. -/
theorem JwtMiddleware_wrong_signing_method_witness :
    ((NewMiddleware "k").JwtMiddleware demoLibs (fun _ => ⟨200, "ok"⟩)
      "Bearer abc").response.status = 401 ∧
    ((NewMiddleware "k").JwtMiddleware demoLibs (fun _ => ⟨200, "ok"⟩)
      "Bearer abc").forwarded = none :=
  ⟨(JwtMiddleware_wrong_signing_method (NewMiddleware "k") demoLibs (fun _ => ⟨200, "ok"⟩)
      "Bearer abc" "abc" ⟨jwt.SigningMethodHS256, ⟨⟨none, none⟩, ⟨"a", 1⟩⟩, "HS256.a", "sig"⟩
      (shop noFaults) ⟨"a", "pw"⟩ demoPool (by decide) rfl (by decide)).2.2.1,
   by decide⟩

theorem JwtMiddleware_header_cases (m : Middleware) (x : Libs) (next : Claims → Response)
    (authHeader : String) :
    ((m.JwtMiddleware x next authHeader).parsed ≠ none ↔
      ((strings.Split authHeader ' ').length = 2 ∧
        (strings.Split authHeader ' ').head? = some "Bearer")) ∧
    (∀ tokenStr, strings.Split authHeader ' ' = ["Bearer", tokenStr] →
      (m.JwtMiddleware x next authHeader).parsed = some tokenStr) ∧
    (authHeader = "" →
      (m.JwtMiddleware x next authHeader).response
        = http.Error "Нет заголовка Authorization" StatusUnauthorized ∧
      (m.JwtMiddleware x next authHeader).response.status = 401 ∧
      (m.JwtMiddleware x next authHeader).forwarded = none) ∧
    (authHeader ≠ "" →
      ¬ ((strings.Split authHeader ' ').length = 2 ∧
        (strings.Split authHeader ' ').head? = some "Bearer") →
      (m.JwtMiddleware x next authHeader).response
        = http.Error "Неправильный формат заголовка Authorization" StatusUnauthorized ∧
      (m.JwtMiddleware x next authHeader).response.status = 401 ∧
      (m.JwtMiddleware x next authHeader).forwarded = none) := by
  by_cases hempty : authHeader = ""
  · subst hempty
    refine ⟨?_, ?_, ?_, ?_⟩
    · simp [Middleware.JwtMiddleware, Split_empty]
    · intro tokenStr h
      rw [Split_empty] at h
      simp at h
    · intro _
      simp [Middleware.JwtMiddleware, http.Error, StatusUnauthorized]
    · intro h
      exact absurd rfl h
  · by_cases hconf : (strings.Split authHeader ' ').length = 2 ∧
        (strings.Split authHeader ' ').head? = some "Bearer"
    · have hcond : ¬ ((strings.Split authHeader ' ').length ≠ 2 ∨
          (strings.Split authHeader ' ').head? ≠ some "Bearer") := by
        rw [not_or, not_not, not_not]
        exact hconf
      refine ⟨?_, ?_, ?_, ?_⟩
      · simp only [Middleware.JwtMiddleware, hempty, hcond, if_false]
        constructor
        · intro _; exact hconf
        · intro _
          split <;> simp
      · intro tokenStr h
        simp only [Middleware.JwtMiddleware, hempty, hcond, if_false]
        rw [h]
        split <;> simp
      · intro h
        exact absurd h hempty
      · intro _ h
        exact absurd hconf h
    · have hcond : (strings.Split authHeader ' ').length ≠ 2 ∨
          (strings.Split authHeader ' ').head? ≠ some "Bearer" := by
        by_contra hc
        rw [not_or, not_not, not_not] at hc
        exact hconf hc
      refine ⟨?_, ?_, ?_, ?_⟩
      · simp only [Middleware.JwtMiddleware, hempty, hcond, if_false, if_true]
        simp [hconf]
      · intro tokenStr h
        rw [h] at hconf
        simp at hconf
      · intro h
        exact absurd h hempty
      · intro _ _
        simp [Middleware.JwtMiddleware, hempty, hcond, http.Error, StatusUnauthorized]

theorem JwtMiddleware_conforming (m : Middleware) (x : Libs) (next : Claims → Response)
    (authHeader tokenStr : String)
    (hparts : strings.Split authHeader ' ' = ["Bearer", tokenStr]) :
    (∀ e, jwt.ParseWithClaims x tokenStr m.keyFunc = .error e →
      m.JwtMiddleware x next authHeader
        = ⟨http.Error ("Неправибльный токен: " ++ e) StatusUnauthorized, some tokenStr, none⟩) ∧
    (∀ token, jwt.ParseWithClaims x tokenStr m.keyFunc = .ok token →
      m.JwtMiddleware x next authHeader
        = ⟨next token.payload.claims, some tokenStr, some token.payload.claims⟩) := by
  have hne : authHeader ≠ "" := by
    intro h
    rw [h, Split_empty] at hparts
    simp at hparts
  refine ⟨?_, ?_⟩
  · intro e he
    simp [Middleware.JwtMiddleware, hne, hparts, he]
  · intro token ht
    simp [Middleware.JwtMiddleware, hne, hparts, ht]

/-- C17: `JwtMiddleware` proceeds to token verification if and only if the header value,
split on the space character, has exactly two parts of which the first is "Bearer". On
such a header it gives the second part to `jwt.ParseWithClaims` with its key function, and
what it does next is decided by the result alone: on an error it answers 401 with that
error and does not invoke the next handler, on a valid token it invokes the next handler
with the claims of the token and returns what that handler wrote. An empty (or missing)
header is answered 401 with "Нет заголовка Authorization", any other value that does not
conform 401 with "Неправильный формат заголовка Authorization", and in both rejections
nothing is given to `jwt.ParseWithClaims` and the next handler is not invoked. -/
theorem JwtMiddleware_header_format (m : Middleware) (x : Libs) (next : Claims → Response)
    (authHeader : String) :
    ((m.JwtMiddleware x next authHeader).parsed ≠ none ↔
      ((strings.Split authHeader ' ').length = 2 ∧
        (strings.Split authHeader ' ').head? = some "Bearer")) ∧
    (∀ tokenStr, strings.Split authHeader ' ' = ["Bearer", tokenStr] →
      (m.JwtMiddleware x next authHeader).parsed = some tokenStr) ∧
    (authHeader = "" →
      (m.JwtMiddleware x next authHeader).response
        = http.Error "Нет заголовка Authorization" StatusUnauthorized ∧
      (m.JwtMiddleware x next authHeader).response.status = 401 ∧
      (m.JwtMiddleware x next authHeader).forwarded = none) ∧
    (authHeader ≠ "" →
      ¬ ((strings.Split authHeader ' ').length = 2 ∧
        (strings.Split authHeader ' ').head? = some "Bearer") →
      (m.JwtMiddleware x next authHeader).response
        = http.Error "Неправильный формат заголовка Authorization" StatusUnauthorized ∧
      (m.JwtMiddleware x next authHeader).response.status = 401 ∧
      (m.JwtMiddleware x next authHeader).forwarded = none) ∧
    (∀ tokenStr, strings.Split authHeader ' ' = ["Bearer", tokenStr] →
      (∀ e, jwt.ParseWithClaims x tokenStr m.keyFunc = .error e →
        m.JwtMiddleware x next authHeader
          = ⟨http.Error ("Неправибльный токен: " ++ e) StatusUnauthorized, some tokenStr,
              none⟩) ∧
      (∀ token, jwt.ParseWithClaims x tokenStr m.keyFunc = .ok token →
        m.JwtMiddleware x next authHeader
          = ⟨next token.payload.claims, some tokenStr, some token.payload.claims⟩)) :=
  ⟨(JwtMiddleware_header_cases m x next authHeader).1,
   (JwtMiddleware_header_cases m x next authHeader).2.1,
   (JwtMiddleware_header_cases m x next authHeader).2.2.1,
   (JwtMiddleware_header_cases m x next authHeader).2.2.2,
   fun tokenStr hparts => JwtMiddleware_conforming m x next authHeader tokenStr hparts⟩

/-- Witness of C17: the header "Bearer " followed by the token of "a" signed with the
secret of the middleware reaches the next handler with the claims of "a" and returns what
it wrote; "InvalidFormatToken" is one part, not two, and is refused. -/
theorem JwtMiddleware_header_format_witness :
    (NewMiddleware "k").JwtMiddleware goodLibs (fun c => ⟨200, c.Username⟩)
        ("Bearer " ++ (goodToken.signingString ++ "." ++ goodToken.signature))
      = ⟨⟨200, "a"⟩, some (goodToken.signingString ++ "." ++ goodToken.signature),
          some ⟨"a", 1⟩⟩ ∧
    ((NewMiddleware "k").JwtMiddleware demoLibs (fun _ => ⟨200, "ok"⟩)
      "InvalidFormatToken").response
      = http.Error "Неправильный формат заголовка Authorization" StatusUnauthorized :=
  ⟨((JwtMiddleware_header_format (NewMiddleware "k") goodLibs (fun c => ⟨200, c.Username⟩)
      ("Bearer " ++ (goodToken.signingString ++ "." ++ goodToken.signature))).2.2.2.2
      (goodToken.signingString ++ "." ++ goodToken.signature) (by rfl)).2 goodToken
      (by set_option maxRecDepth 4000 in rfl),
   ((JwtMiddleware_header_format (NewMiddleware "k") demoLibs (fun _ => ⟨200, "ok"⟩)
      "InvalidFormatToken").2.2.2.1 (by decide) (by decide)).1⟩

/-! ## Registration -/

theorem le_foldr_max (l : List Int) (a : Int) (h : a ∈ l) : a ≤ l.foldr max 0 := by
  induction l with
  | nil => cases h
  | cons b l ih =>
    simp only [List.foldr_cons]
    rcases List.mem_cons.mp h with rfl | h
    · exact le_max_left _ _
    · exact le_trans (ih h) (le_max_right _ _)

theorem id_lt_nextId (s : Store) (u : UserRow) (h : u ∈ s.users) : u.id < s.nextId := by
  have := le_foldr_max (s.users.map (fun u => u.id)) u.id (List.mem_map_of_mem _ h)
  unfold Store.nextId
  omega

theorem SelectIDPassHashQuery_store (f : Faults) (username : String) (p : Pool) :
    (PGXDatabase.SelectIDPassHashQuery f username p).pool.store = p.store := by
  unfold PGXDatabase.SelectIDPassHashQuery
  split
  · rfl
  · split <;> rfl

theorem InsertUserQuery_ok {f : Faults} {username passhash : String} {p : Pool}
    (h : (PGXDatabase.InsertUserQuery f username passhash p).err = none) :
    (PGXDatabase.InsertUserQuery f username passhash p).val = p.store.nextId ∧
    (PGXDatabase.InsertUserQuery f username passhash p).pool.store
      = (p.store.insertUser username passhash).1 := by
  unfold PGXDatabase.InsertUserQuery at h ⊢
  split
  · rename_i h1; simp [h1] at h
  · rename_i h1
    by_cases ht : p.store.usernameTaken username = true
    · simp [h1, ht] at h
    · simp [ht, Store.insertUser]

theorem selectCoins_insertUser (s : Store) (username passhash : String) :
    (s.insertUser username passhash).1.selectCoins s.nextId = some 1000 := by
  have hnone : s.users.find? (fun u => u.id == s.nextId) = none := by
    rw [List.find?_eq_none]
    intro u hu
    have := id_lt_nextId s u hu
    simp only [beq_iff_eq]
    omega
  simp [Store.insertUser, Store.selectCoins, List.find?_append, hnone]

theorem selectItems_insertUser (s : Store) (href : s.Referenced) (username passhash : String) :
    (s.insertUser username passhash).1.selectItems s.nextId = [] := by
  have hnil : s.user_inventory.filter (fun r => r.user_id == s.nextId) = [] := by
    rw [List.filter_eq_nil_iff]
    intro r hr
    obtain ⟨u, hu, hid⟩ := href.1 r hr
    have := id_lt_nextId s u hu
    simp only [beq_iff_eq]
    omega
  simp [Store.insertUser, Store.selectItems, hnil]

theorem selectReceived_insertUser (s : Store) (href : s.Referenced)
    (username passhash : String) :
    (s.insertUser username passhash).1.selectReceived s.nextId = [] := by
  have hnil : s.coin_transactions.filter (fun ct => ct.to_user_id == s.nextId) = [] := by
    rw [List.filter_eq_nil_iff]
    intro ct hct
    obtain ⟨u, hu, hid⟩ := (href.2 ct hct).2
    have := id_lt_nextId s u hu
    simp only [beq_iff_eq]
    omega
  simp [Store.insertUser, Store.selectReceived, hnil]

theorem selectSent_insertUser (s : Store) (href : s.Referenced)
    (username passhash : String) :
    (s.insertUser username passhash).1.selectSent s.nextId = [] := by
  have hnil : s.coin_transactions.filter (fun ct => ct.from_user_id == s.nextId) = [] := by
    rw [List.filter_eq_nil_iff]
    intro ct hct
    obtain ⟨u, hu, hid⟩ := (href.2 ct hct).1
    have := id_lt_nextId s u hu
    simp only [beq_iff_eq]
    omega
  simp [Store.insertUser, Store.selectSent, hnil]

theorem GenerateToken_register_store (f : Faults) (jwtSecret : String) (x : Libs)
    (req : AuthRequest) (p : Pool) (hashed : String)
    (hnew : (PGXDatabase.SelectIDPassHashQuery f req.Username p).err ≠ none)
    (hhash : x.GenerateFromPassword req.Password = .ok hashed)
    (hins : (PGXDatabase.InsertUserQuery f req.Username hashed
      (PGXDatabase.SelectIDPassHashQuery f req.Username p).pool).err = none) :
    ((shop f).GenerateToken jwtSecret x req p).pool.store
      = (p.store.insertUser req.Username hashed).1 := by
  have hi := (InsertUserQuery_ok hins).2
  rw [SelectIDPassHashQuery_store] at hi
  cases he : (PGXDatabase.SelectIDPassHashQuery f req.Username p).err with
  | none => exact absurd he hnew
  | some e =>
    simp only [Service.GenerateToken, Service.resolveUser, shop, NewService, NewPGXDatabase, he,
      hhash, hins]
    split <;> exact hi

theorem rowsSeen_noFaults {α : Type} (next : Nat → Stmt) (k : Nat) (l : List α) :
    PGXDatabase.rowsSeen noFaults next k l = l := by
  induction l generalizing k with
  | nil => rfl
  | cons a rest ih =>
    simp only [PGXDatabase.rowsSeen, noFaults]
    rw [ih (k + 1)]

theorem GetInfo_answered (user : Claims) (q : Pool) (c : Int)
    (hc : q.store.selectCoins user.UserID = some c) :
    ((shop noFaults).GetInfo user q).info
      = ⟨⟨q.store.selectReceived user.UserID, q.store.selectSent user.UserID⟩,
          q.store.selectItems user.UserID, c⟩ ∧
    ((shop noFaults).GetInfo user q).status = StatusOK ∧
    ((shop noFaults).GetInfo user q).err = none ∧
    ((shop noFaults).GetInfo user q).pool.store = q.store := by
  simp [Service.GetInfo, shop, NewService, NewPGXDatabase, PGXDatabase.SelectCoinsQuery,
    PGXDatabase.SelectUserItemsQuery, PGXDatabase.SelectReceivedMoneyQuery,
    PGXDatabase.SelectSentMoneyQuery, PGXDatabase.sent, queryRow, rowsSeen_noFaults, hc,
    show ∀ st, noFaults st = none from fun _ => rfl]

/-- C13: registering a new username creates a user whose balance is exactly 1000 coins,
with empty inventory and empty sent and received histories. When the lookup of
`GenerateToken` returns an error (no user is found), the password hashes and the insert
succeeds, then in a store whose rows refer to existing users only, the table `users` gets
one more row, of the requested username, the hash and 1000 coins; its balance reads 1000,
its inventory and both histories read empty, and `GetInfo` for the new user returns
exactly that. -/
theorem GenerateToken_registers (f : Faults) (jwtSecret : String) (x : Libs)
    (req : AuthRequest) (p : Pool) (hashed : String) (href : p.store.Referenced)
    (hnew : (PGXDatabase.SelectIDPassHashQuery f req.Username p).err ≠ none)
    (hhash : x.GenerateFromPassword req.Password = .ok hashed)
    (hins : (PGXDatabase.InsertUserQuery f req.Username hashed
      (PGXDatabase.SelectIDPassHashQuery f req.Username p).pool).err = none) :
    ((shop f).GenerateToken jwtSecret x req p).pool.store.users
      = p.store.users ++ [⟨p.store.nextId, req.Username, hashed, 1000⟩] ∧
    ((shop f).GenerateToken jwtSecret x req p).pool.store.selectCoins p.store.nextId
      = some 1000 ∧
    ((shop f).GenerateToken jwtSecret x req p).pool.store.selectItems p.store.nextId = [] ∧
    ((shop f).GenerateToken jwtSecret x req p).pool.store.selectReceived p.store.nextId
      = [] ∧
    ((shop f).GenerateToken jwtSecret x req p).pool.store.selectSent p.store.nextId = [] ∧
    ((shop noFaults).GetInfo ⟨req.Username, p.store.nextId⟩
      ((shop f).GenerateToken jwtSecret x req p).pool).info = ⟨⟨[], []⟩, [], 1000⟩ := by
  have hs := GenerateToken_register_store f jwtSecret x req p hashed hnew hhash hins
  have h1 := selectCoins_insertUser p.store req.Username hashed
  have h2 := selectItems_insertUser p.store href req.Username hashed
  have h3 := selectReceived_insertUser p.store href req.Username hashed
  have h4 := selectSent_insertUser p.store href req.Username hashed
  rw [← hs] at h1 h2 h3 h4
  refine ⟨by rw [hs]; rfl, h1, h2, h3, h4, ?_⟩
  rw [(GetInfo_answered ⟨req.Username, p.store.nextId⟩ _ 1000 h1).1]
  simp only [h2, h3, h4]

/-- Witness of C13: "zed" registers in a store where "a" owns a cup and has sent "b" 5
coins; "zed" gets id 3 and 1000 coins. -/
theorem GenerateToken_registers_witness :
    ((shop noFaults).GetInfo ⟨"zed", 3⟩
      ((shop noFaults).GenerateToken "k" demoLibs ⟨"zed", "pw"⟩
        ⟨⟨[⟨1, "a", "h", 100⟩, ⟨2, "b", "h", 5⟩], [⟨1, "cup", 1⟩], [⟨1, 2, 5⟩]⟩, []⟩).pool).info
      = ⟨⟨[], []⟩, [], 1000⟩ :=
  (GenerateToken_registers noFaults "k" demoLibs ⟨"zed", "pw"⟩
    ⟨⟨[⟨1, "a", "h", 100⟩, ⟨2, "b", "h", 5⟩], [⟨1, "cup", 1⟩], [⟨1, 2, 5⟩]⟩, []⟩ "hash:pw"
    (by unfold Store.Referenced; decide) (by decide) rfl (by decide)).2.2.2.2.2


/-! ## The scenario -/

theorem shop_SendCoins_eq (f : Faults) (user : Claims) (req : SendCoinRequest) (p : Pool)
    (ha : 0 < req.Amount) (h1 : req.ToUser ≠ "") (h2 : req.ToUser ≠ user.Username) :
    (shop f).SendCoins user req p
      = PGXDatabase.SendCoins f user.UserID req.ToUser req.Amount p := by
  simp [shop, NewService, NewPGXDatabase, Service.SendCoins, not_le.mpr ha, h1, h2]

theorem aliceRegisters_store (jwtSecret : String) (x : Libs) (pwAlice hashA : String)
    (hA : x.GenerateFromPassword pwAlice = .ok hashA) :
    (aliceRegisters jwtSecret x pwAlice).pool.store
      = ⟨[⟨1, "alice", hashA, 1000⟩], [], []⟩ := by
  unfold aliceRegisters
  rw [GenerateToken_register_store noFaults jwtSecret x ⟨"alice", pwAlice⟩ emptyPool hashA
    (by simp [PGXDatabase.SelectIDPassHashQuery, noFaults, emptyPool, Store.selectIdPass])
    hA rfl]
  rfl

theorem aliceBuys_store (jwtSecret : String) (x : Libs) (pwAlice hashA : String)
    (hA : x.GenerateFromPassword pwAlice = .ok hashA) :
    (aliceBuys jwtSecret x pwAlice).status = StatusOK ∧
    (aliceBuys jwtSecret x pwAlice).pool.store
      = ⟨[⟨1, "alice", hashA, 920⟩], [⟨1, "t-shirt", 1⟩], []⟩ := by
  have h1 := aliceRegisters_store jwtSecret x pwAlice hashA hA
  have hclaims : (aliceRegisters jwtSecret x pwAlice).pool.claimsOf "alice" = ⟨"alice", 1⟩ := by
    unfold Pool.claimsOf; rw [h1]; rfl
  have hcoins : (aliceRegisters jwtSecret x pwAlice).pool.store.selectCoins 1 = some 1000 := by
    rw [h1]; rfl
  unfold aliceBuys
  rw [hclaims, shop_BuyItem_eq noFaults ⟨"alice", 1⟩ "t-shirt" 80 _ (by decide),
    BuyItem_committed noFaults _ 1 80 "t-shirt" 1000 (fun _ => rfl) hcoins (by decide)]
  refine ⟨rfl, ?_⟩
  simp only [h1]
  rfl

theorem bobRegisters_store (jwtSecret : String) (x : Libs) (pwAlice pwBob hashA hashB : String)
    (hA : x.GenerateFromPassword pwAlice = .ok hashA)
    (hB : x.GenerateFromPassword pwBob = .ok hashB) :
    (bobRegisters jwtSecret x pwAlice pwBob).pool.store
      = ⟨[⟨1, "alice", hashA, 920⟩, ⟨2, "bob", hashB, 1000⟩], [⟨1, "t-shirt", 1⟩], []⟩ := by
  have h2 := (aliceBuys_store jwtSecret x pwAlice hashA hA).2
  have hnew : (PGXDatabase.SelectIDPassHashQuery noFaults "bob"
      (aliceBuys jwtSecret x pwAlice).pool).err ≠ none := by
    simp [PGXDatabase.SelectIDPassHashQuery, noFaults, h2, Store.selectIdPass]
  have hins : (PGXDatabase.InsertUserQuery noFaults "bob" hashB
      (PGXDatabase.SelectIDPassHashQuery noFaults "bob"
        (aliceBuys jwtSecret x pwAlice).pool).pool).err = none := by
    have hs := SelectIDPassHashQuery_store noFaults "bob" (aliceBuys jwtSecret x pwAlice).pool
    simp [PGXDatabase.InsertUserQuery, noFaults, hs, h2, Store.usernameTaken]
  unfold bobRegisters
  rw [GenerateToken_register_store noFaults jwtSecret x ⟨"bob", pwBob⟩ _ hashB hnew hB hins, h2]
  rfl

theorem aliceSends_store (jwtSecret : String) (x : Libs) (pwAlice pwBob hashA hashB : String)
    (hA : x.GenerateFromPassword pwAlice = .ok hashA)
    (hB : x.GenerateFromPassword pwBob = .ok hashB) :
    (aliceSends jwtSecret x pwAlice pwBob).status = StatusOK ∧
    (aliceSends jwtSecret x pwAlice pwBob).pool.store
      = ⟨[⟨1, "alice", hashA, 870⟩, ⟨2, "bob", hashB, 1050⟩], [⟨1, "t-shirt", 1⟩],
          [⟨1, 2, 50⟩]⟩ := by
  have h3 := bobRegisters_store jwtSecret x pwAlice pwBob hashA hashB hA hB
  have hclaims : (bobRegisters jwtSecret x pwAlice pwBob).pool.claimsOf "alice"
      = ⟨"alice", 1⟩ := by
    unfold Pool.claimsOf; rw [h3]; rfl
  have hid : (bobRegisters jwtSecret x pwAlice pwBob).pool.store.selectId "bob" = some 2 := by
    rw [h3]; rfl
  have hcoins : (bobRegisters jwtSecret x pwAlice pwBob).pool.store.selectCoins 1
      = some 920 := by
    rw [h3]; rfl
  unfold aliceSends
  rw [hclaims, shop_SendCoins_eq noFaults ⟨"alice", 1⟩ ⟨"bob", 50⟩ _ (by decide) (by decide)
    (by decide),
    SendCoins_committed noFaults _ 1 2 "bob" 50 920 (fun _ => rfl) hid hcoins (by decide)]
  refine ⟨rfl, ?_⟩
  simp only [h3]
  rfl

theorem GetInfo_of_store (user : Claims) (q : Pool) (s : Store) (c : Int)
    (hs : q.store = s) (hc : s.selectCoins user.UserID = some c) :
    ((shop noFaults).GetInfo user q).info
      = ⟨⟨s.selectReceived user.UserID, s.selectSent user.UserID⟩,
          s.selectItems user.UserID, c⟩ := by
  subst hs
  exact (GetInfo_answered user q c hc).1

/-- C18: the scenario on the sequential model, with no statement refused and both
passwords hashing. From the empty store "alice" registers and `/api/info` shows her 1000
coins; she buys a "t-shirt" (catalog price 80) and has 920 coins and the inventory
[{t-shirt, 1}]; "bob" registers with 1000 coins; alice sends bob 50 and then has 870, bob
1050, alice's sent history is exactly [{toUser: bob, amount: 50}] and bob's received
history exactly [{fromUser: alice, amount: 50}]. The store gives alice the id 1 and bob
the id 2. -/
theorem scenario_alice_bob (jwtSecret : String) (x : Libs)
    (pwAlice pwBob hashA hashB : String)
    (hA : x.GenerateFromPassword pwAlice = .ok hashA)
    (hB : x.GenerateFromPassword pwBob = .ok hashB) :
    ((shop noFaults).GetInfo ⟨"alice", 1⟩ (aliceRegisters jwtSecret x pwAlice).pool).info
      = ⟨⟨[], []⟩, [], 1000⟩ ∧
    (aliceBuys jwtSecret x pwAlice).status = StatusOK ∧
    ((shop noFaults).GetInfo ⟨"alice", 1⟩ (aliceBuys jwtSecret x pwAlice).pool).info
      = ⟨⟨[], []⟩, [⟨"t-shirt", 1⟩], 920⟩ ∧
    ((shop noFaults).GetInfo ⟨"bob", 2⟩ (bobRegisters jwtSecret x pwAlice pwBob).pool).info
      = ⟨⟨[], []⟩, [], 1000⟩ ∧
    (aliceSends jwtSecret x pwAlice pwBob).status = StatusOK ∧
    ((shop noFaults).GetInfo ⟨"alice", 1⟩ (aliceSends jwtSecret x pwAlice pwBob).pool).info
      = ⟨⟨[], [⟨"", "bob", 50⟩]⟩, [⟨"t-shirt", 1⟩], 870⟩ ∧
    ((shop noFaults).GetInfo ⟨"bob", 2⟩ (aliceSends jwtSecret x pwAlice pwBob).pool).info
      = ⟨⟨[⟨"alice", "", 50⟩], []⟩, [], 1050⟩ := by
  have h1 := aliceRegisters_store jwtSecret x pwAlice hashA hA
  have h2 := aliceBuys_store jwtSecret x pwAlice hashA hA
  have h3 := bobRegisters_store jwtSecret x pwAlice pwBob hashA hashB hA hB
  have h4 := aliceSends_store jwtSecret x pwAlice pwBob hashA hashB hA hB
  refine ⟨?_, h2.1, ?_, ?_, h4.1, ?_, ?_⟩
  · rw [GetInfo_of_store ⟨"alice", 1⟩ _ _ 1000 h1 rfl]; rfl
  · rw [GetInfo_of_store ⟨"alice", 1⟩ _ _ 920 h2.2 rfl]; rfl
  · rw [GetInfo_of_store ⟨"bob", 2⟩ _ _ 1000 h3 rfl]; rfl
  · rw [GetInfo_of_store ⟨"alice", 1⟩ _ _ 870 h4.2 rfl]; rfl
  · rw [GetInfo_of_store ⟨"bob", 2⟩ _ _ 1050 h4.2 rfl]; rfl

/-- Witness of C18: the scenario with the example libraries; at the end the tables hold
alice with 870 coins, bob with 1050, one t-shirt and one transaction. -/
theorem scenario_alice_bob_witness :
    (aliceSends "k" demoLibs "pa" "pb").pool.store
      = ⟨[⟨1, "alice", "hash:pa", 870⟩, ⟨2, "bob", "hash:pb", 1050⟩], [⟨1, "t-shirt", 1⟩],
          [⟨1, 2, 50⟩]⟩ ∧
    ((shop noFaults).GetInfo ⟨"bob", 2⟩ (aliceSends "k" demoLibs "pa" "pb").pool).info
      = ⟨⟨[⟨"alice", "", 50⟩], []⟩, [], 1050⟩ :=
  ⟨by decide,
   (scenario_alice_bob "k" demoLibs "pa" "pb" "hash:pa" "hash:pb" rfl rfl).2.2.2.2.2.2⟩


/-! ## Token lifetime -/

theorem NewNumericDate_add_day (t : Int) :
    jwt.NewNumericDate (t + TokenExpireDuration) = jwt.NewNumericDate t + TokenExpireDuration := by
  unfold jwt.NewNumericDate TokenExpireDuration
  omega

theorem GenerateToken_signed {σ : Type} (s : Service σ) (jwtSecret : String) (x : Libs)
    (req : AuthRequest) (p : σ)
    (hok : (s.GenerateToken jwtSecret x req p).status = StatusOK) :
    ∃ userID, jwt.SignedString x jwt.SigningMethodHS512
        (Service.tokenClaims x userID req.Username) jwtSecret
      = .ok (s.GenerateToken jwtSecret x req p).token := by
  unfold Service.GenerateToken at hok ⊢
  cases hres : Service.resolveUser s x req p with
  | error out =>
    rw [hres] at hok
    exact absurd hok (resolveUser_error_status hres)
  | ok v =>
    obtain ⟨userID, q⟩ := v
    rw [hres] at hok
    simp only at hok ⊢
    refine ⟨userID, ?_⟩
    cases hs : jwt.SignedString x jwt.SigningMethodHS512
        (Service.tokenClaims x userID req.Username) jwtSecret with
    | error e => rw [hs] at hok; simp [StatusInternalServerError, StatusOK] at hok
    | ok tokenStr2 => rfl

/-- Counterexample to C21 as stated, at two calls. Made at the instant
1700000000500000000, half a second into a second (both readings of the clock are that
instant), the call succeeds and signs the issued-at 1700000000000000000, which is not
that instant, and an expires-at which is not that instant plus 24 hours. Made across the
turn of a second (the clock reads 1699999999999999999 for the expiry and
1700000000000000001 for the issue), the call succeeds and signs an expires-at one second
short of 24 hours after the issued-at. -/
theorem token_issued_at_not_now :
    (stillLibs.Now1 = 1700000000500000000 ∧ stillLibs.Now2 = 1700000000500000000 ∧
      ((shop noFaults).GenerateToken "k" stillLibs ⟨"zed", "pw"⟩ demoPool).status = StatusOK ∧
      Service.tokenClaims stillLibs 3 "zed"
        = ⟨⟨some 1700086400000000000, some 1700000000000000000⟩, ⟨"zed", 3⟩⟩ ∧
      jwt.SignedString stillLibs jwt.SigningMethodHS512
          (Service.tokenClaims stillLibs 3 "zed") "k"
        = .ok ((shop noFaults).GenerateToken "k" stillLibs ⟨"zed", "pw"⟩ demoPool).token ∧
      (1700000000000000000 : Int) ≠ 1700000000500000000 ∧
      (1700086400000000000 : Int) ≠ 1700000000500000000 + TokenExpireDuration) ∧
    (tickLibs.Now1 = 1699999999999999999 ∧ tickLibs.Now2 = 1700000000000000001 ∧
      ((shop noFaults).GenerateToken "k" tickLibs ⟨"zed", "pw"⟩ demoPool).status = StatusOK ∧
      Service.tokenClaims tickLibs 3 "zed"
        = ⟨⟨some 1700086399000000000, some 1700000000000000000⟩, ⟨"zed", 3⟩⟩ ∧
      jwt.SignedString tickLibs jwt.SigningMethodHS512
          (Service.tokenClaims tickLibs 3 "zed") "k"
        = .ok ((shop noFaults).GenerateToken "k" tickLibs ⟨"zed", "pw"⟩ demoPool).token ∧
      (1700086399000000000 : Int) - 1700000000000000000 ≠ TokenExpireDuration) :=
  ⟨⟨rfl, rfl, by decide, by decide, rfl, by decide, by decide⟩,
   ⟨rfl, rfl, by decide, by decide, rfl, by decide⟩⟩

/-- C21, amended: for every successful `GenerateToken` call whose two readings of the clock
fall in the same second, the claims that are signed have issued-at equal to the time of
the call cut down to whole seconds and expires-at equal to that plus 24 hours, so
expires-at minus issued-at is exactly 24 hours. -/
theorem token_lifetime {σ : Type} (s : Service σ) (jwtSecret : String) (x : Libs)
    (req : AuthRequest) (p : σ)
    (hsame : jwt.NewNumericDate x.Now1 = jwt.NewNumericDate x.Now2)
    (hok : (s.GenerateToken jwtSecret x req p).status = StatusOK) :
    (∃ userID, jwt.SignedString x jwt.SigningMethodHS512
        ⟨⟨some (jwt.NewNumericDate x.Now2 + TokenExpireDuration),
            some (jwt.NewNumericDate x.Now2)⟩,
          ⟨req.Username, userID⟩⟩ jwtSecret
      = .ok (s.GenerateToken jwtSecret x req p).token) ∧
    (jwt.NewNumericDate x.Now2 + TokenExpireDuration) - jwt.NewNumericDate x.Now2
      = 24 * 3600000000000 ∧
    jwt.NewNumericDate x.Now2 % 1000000000 = 0 ∧
    jwt.NewNumericDate x.Now2 ≤ x.Now2 ∧ x.Now2 < jwt.NewNumericDate x.Now2 + 1000000000 ∧
    jwt.NewNumericDate x.Now2 ≤ x.Now1 ∧ x.Now1 < jwt.NewNumericDate x.Now2 + 1000000000 := by
  obtain ⟨userID, hs⟩ := GenerateToken_signed s jwtSecret x req p hok
  refine ⟨⟨userID, ?_⟩, by unfold TokenExpireDuration; omega, ?_, ?_, ?_, ?_, ?_⟩
  · rw [← hs]
    simp only [Service.tokenClaims, NewNumericDate_add_day, hsame]
  all_goals
    unfold jwt.NewNumericDate at hsame ⊢
    omega

/-- Witness of C21, amended: the clock reads 1700000000123456789 and, 210 nanoseconds
later, 1700000000123456999. -/
theorem token_lifetime_witness :
    ∃ userID, jwt.SignedString demoLibs jwt.SigningMethodHS512
        ⟨⟨some (jwt.NewNumericDate demoLibs.Now2 + TokenExpireDuration),
            some (jwt.NewNumericDate demoLibs.Now2)⟩, ⟨"zed", userID⟩⟩ "k"
      = .ok ((shop noFaults).GenerateToken "k" demoLibs ⟨"zed", "pw"⟩ demoPool).token :=
  (token_lifetime (shop noFaults) "k" demoLibs ⟨"zed", "pw"⟩ demoPool (by decide)
    (by decide)).1

/-! ## Lookup, registration and login -/

/-- C25: whenever the lookup returns any error at all, a transient store failure
included, `GenerateToken` takes the registration path, whatever the database
implementation is. It hashes the supplied password; a hashing error comes back with status
500. Otherwise it calls `InsertUserQuery` with the requested username and the hash, on the
pool the lookup left; an insert error comes back with status 500. Otherwise it returns the
token signed for the inserted id with status 200. The lookup error occurs in none of the
outcomes, and the status is 500 only if hashing or the insert failed. The signing of the
claims with HS512 under the service's secret is taken not to fail (`hsign`): the secret is
a byte string, the one kind of key that method signs with. -/
theorem GenerateToken_lookup_error_registers {σ : Type} (s : Service σ) (jwtSecret : String)
    (x : Libs) (req : AuthRequest) (p : σ) (e0 : String)
    (hlook : (s.database.SelectIDPassHashQuery req.Username p).err = some e0)
    (hsign : ∀ userID, ∃ t, jwt.SignedString x jwt.SigningMethodHS512
      (Service.tokenClaims x userID req.Username) jwtSecret = .ok t) :
    (∀ e, x.GenerateFromPassword req.Password = .error e →
      s.GenerateToken jwtSecret x req p =
        ⟨"", StatusInternalServerError, some e,
          (s.database.SelectIDPassHashQuery req.Username p).pool⟩) ∧
    (∀ hashed, x.GenerateFromPassword req.Password = .ok hashed →
      (∀ e, (s.database.InsertUserQuery req.Username hashed
          (s.database.SelectIDPassHashQuery req.Username p).pool).err = some e →
        s.GenerateToken jwtSecret x req p =
          ⟨"", StatusInternalServerError, some e,
            (s.database.InsertUserQuery req.Username hashed
              (s.database.SelectIDPassHashQuery req.Username p).pool).pool⟩) ∧
      ((s.database.InsertUserQuery req.Username hashed
          (s.database.SelectIDPassHashQuery req.Username p).pool).err = none →
        (s.GenerateToken jwtSecret x req p).status = StatusOK ∧
        (s.GenerateToken jwtSecret x req p).err = none ∧
        (s.GenerateToken jwtSecret x req p).pool
          = (s.database.InsertUserQuery req.Username hashed
              (s.database.SelectIDPassHashQuery req.Username p).pool).pool ∧
        jwt.SignedString x jwt.SigningMethodHS512
            (Service.tokenClaims x (s.database.InsertUserQuery req.Username hashed
              (s.database.SelectIDPassHashQuery req.Username p).pool).val req.Username)
            jwtSecret
          = .ok (s.GenerateToken jwtSecret x req p).token)) ∧
    ((s.GenerateToken jwtSecret x req p).status = StatusInternalServerError →
      (∃ e, x.GenerateFromPassword req.Password = .error e) ∨
      ∃ hashed e, x.GenerateFromPassword req.Password = .ok hashed ∧
        (s.database.InsertUserQuery req.Username hashed
          (s.database.SelectIDPassHashQuery req.Username p).pool).err = some e) := by
  have hsigned : ∀ hashed, x.GenerateFromPassword req.Password = .ok hashed →
      (s.database.InsertUserQuery req.Username hashed
          (s.database.SelectIDPassHashQuery req.Username p).pool).err = none →
      ∀ t, jwt.SignedString x jwt.SigningMethodHS512
          (Service.tokenClaims x (s.database.InsertUserQuery req.Username hashed
            (s.database.SelectIDPassHashQuery req.Username p).pool).val req.Username)
          jwtSecret = .ok t →
      s.GenerateToken jwtSecret x req p =
        ⟨t, StatusOK, none, (s.database.InsertUserQuery req.Username hashed
          (s.database.SelectIDPassHashQuery req.Username p).pool).pool⟩ := by
    intro hashed hh hi t hs
    simp only [Service.GenerateToken, Service.resolveUser, hlook, hh, hi, hs]
  refine ⟨?_, ?_, ?_⟩
  · intro e he
    simp only [Service.GenerateToken, Service.resolveUser, hlook, he]
  · intro hashed hh
    refine ⟨?_, ?_⟩
    · intro e hi
      simp only [Service.GenerateToken, Service.resolveUser, hlook, hh, hi]
    · intro hi
      obtain ⟨t, hs⟩ := hsign (s.database.InsertUserQuery req.Username hashed
        (s.database.SelectIDPassHashQuery req.Username p).pool).val
      rw [hsigned hashed hh hi t hs]
      exact ⟨rfl, rfl, rfl, hs⟩
  · intro h500
    cases hh : x.GenerateFromPassword req.Password with
    | error e => exact Or.inl ⟨e, rfl⟩
    | ok hashed =>
      right
      cases hi : (s.database.InsertUserQuery req.Username hashed
          (s.database.SelectIDPassHashQuery req.Username p).pool).err with
      | some e => exact ⟨hashed, e, rfl, hi⟩
      | none =>
        obtain ⟨t, hs⟩ := hsign (s.database.InsertUserQuery req.Username hashed
          (s.database.SelectIDPassHashQuery req.Username p).pool).val
        rw [hsigned hashed hh hi t hs] at h500
        simp [StatusOK, StatusInternalServerError] at h500

/-- Witness of C25: the store refuses the lookup of the known user "a" (a transient
failure); the registration path is taken, and the insert fails on the username that is
already there. -/
theorem GenerateToken_lookup_error_registers_witness :
    (shop (failAt (.selectIdPass "a"))).GenerateToken "k" demoLibs ⟨"a", "pw"⟩ demoPool
      = ⟨"", StatusInternalServerError, some ErrUniqueViolation,
          ⟨demoPool.store, [⟨.selectIdPass "a", false⟩, ⟨.insertUser "a" "hash:pw", false⟩]⟩⟩ :=
  ((GenerateToken_lookup_error_registers (shop (failAt (.selectIdPass "a"))) "k" demoLibs
    ⟨"a", "pw"⟩ demoPool "store failure" (by decide) (fun _ => ⟨_, rfl⟩)).2.1 "hash:pw" rfl).1
    ErrUniqueViolation (by decide)

/-- Counterexample to C26 as stated: the user inserted into the empty table holds 1000
coins, not 300. -/
theorem inserted_user_not_300 :
    (PGXDatabase.InsertUserQuery noFaults "newuser" "passhash" emptyPool).err = none ∧
    (PGXDatabase.InsertUserQuery noFaults "newuser" "passhash" emptyPool).pool.store.users
      = [⟨1, "newuser", "passhash", 1000⟩] ∧
    (PGXDatabase.InsertUserQuery noFaults "newuser" "passhash"
      emptyPool).pool.store.selectCoins 1 ≠ some 300 := by
  decide

/-- C26, amended: `InsertUserQuery` issues the statement `INSERT INTO users (username,
password, coins) VALUES ($1, $2, 1000) RETURNING id` with the given username and password
hash. When the store accepts it, the table `users` gets one more row, of that username,
that hash and 1000 coins, nothing else changes, and the id returned is the id of that
row. -/
theorem InsertUserQuery_inserts_1000 (f : Faults) (username passhash : String) (p : Pool)
    (h : (PGXDatabase.InsertUserQuery f username passhash p).err = none) :
    (PGXDatabase.InsertUserQuery f username passhash p).pool.store.users
      = p.store.users ++
        [⟨(PGXDatabase.InsertUserQuery f username passhash p).val, username, passhash, 1000⟩] ∧
    (PGXDatabase.InsertUserQuery f username passhash p).pool.store.selectCoins
        (PGXDatabase.InsertUserQuery f username passhash p).val = some 1000 ∧
    (PGXDatabase.InsertUserQuery f username passhash p).pool.store.user_inventory
      = p.store.user_inventory ∧
    (PGXDatabase.InsertUserQuery f username passhash p).pool.store.coin_transactions
      = p.store.coin_transactions ∧
    (PGXDatabase.InsertUserQuery f username passhash p).pool.log
      = p.log ++ [⟨.insertUser username passhash, true⟩] := by
  obtain ⟨hv, hs⟩ := InsertUserQuery_ok h
  refine ⟨by rw [hs, hv]; rfl, by rw [hs, hv]; exact selectCoins_insertUser _ _ _,
    by rw [hs]; rfl, by rw [hs]; rfl, ?_⟩
  unfold PGXDatabase.InsertUserQuery at h ⊢
  split
  · rename_i h1; simp [h1] at h
  · rename_i h1
    by_cases ht : p.store.usernameTaken username = true
    · simp [h1, ht] at h
    · simp [ht]

/-- Witness of C26, amended: "zed" is inserted next to "a" and "b" and gets the id 3. -/
theorem InsertUserQuery_inserts_1000_witness :
    (PGXDatabase.InsertUserQuery noFaults "zed" "passhash" demoPool).pool.store.users
      = [⟨1, "a", "h", 100⟩, ⟨2, "b", "h", 5⟩, ⟨3, "zed", "passhash", 1000⟩] :=
  (InsertUserQuery_inserts_1000 noFaults "zed" "passhash" demoPool (by decide)).1

/-- C27: authenticating with a username whose lookup succeeds never creates a user and
never writes to the store, whether the password is correct or not. Whatever the database
implementation is, the pool `GenerateToken` leaves is the pool the lookup left, so
`InsertUserQuery` is not called; over the PGX database the tables are unchanged and the one
statement sent is the lookup. -/
theorem GenerateToken_login_writes_nothing {σ : Type} (s : Service σ) (jwtSecret : String)
    (x : Libs) (req : AuthRequest) (q : σ) (f : Faults) (p : Pool) :
    ((s.database.SelectIDPassHashQuery req.Username q).err = none →
      (s.GenerateToken jwtSecret x req q).pool
        = (s.database.SelectIDPassHashQuery req.Username q).pool) ∧
    ((PGXDatabase.SelectIDPassHashQuery f req.Username p).err = none →
      ((shop f).GenerateToken jwtSecret x req p).pool.store = p.store ∧
      ((shop f).GenerateToken jwtSecret x req p).pool.log
        = p.log ++ [⟨.selectIdPass req.Username, true⟩]) := by
  have key : ∀ {τ : Type} (s : Service τ) (q : τ),
      (s.database.SelectIDPassHashQuery req.Username q).err = none →
      (s.GenerateToken jwtSecret x req q).pool
        = (s.database.SelectIDPassHashQuery req.Username q).pool := by
    intro τ s q h
    simp only [Service.GenerateToken, Service.resolveUser, h]
    cases hc : x.CompareHashAndPassword
        (s.database.SelectIDPassHashQuery req.Username q).val.2 req.Password with
    | some e => rfl
    | none =>
      simp only
      split <;> rfl
  refine ⟨key s q, ?_⟩
  intro h
  have hk := key (shop f) p h
  have hp : (PGXDatabase.SelectIDPassHashQuery f req.Username p).pool
      = ⟨p.store, p.log ++ [⟨.selectIdPass req.Username, true⟩]⟩ := by
    unfold PGXDatabase.SelectIDPassHashQuery at h ⊢
    split
    · rename_i h1; simp [h1] at h
    · rename_i h1
      split
      · rename_i h2; simp [h1, h2] at h
      · rfl
  have hk2 : ((shop f).GenerateToken jwtSecret x req p).pool
      = ⟨p.store, p.log ++ [⟨.selectIdPass req.Username, true⟩]⟩ := by
    rw [hk]; exact hp
  rw [hk2]
  exact ⟨rfl, rfl⟩

/-- Witness of C27: "a" logs in with a wrong password; the tables are as before. -/
theorem GenerateToken_login_writes_nothing_witness :
    ((shop noFaults).GenerateToken "k" demoLibs ⟨"a", "guess"⟩ demoPool).pool.store
      = demoPool.store :=
  ((GenerateToken_login_writes_nothing (shop noFaults) "k" demoLibs ⟨"a", "guess"⟩ demoPool
    noFaults demoPool).2 (by decide)).1

/-- C30: the database-level `SendCoins` does not validate the sign of the amount. In a
store with all balances non-negative, user 1 "sends" -10 coins to "b": the check
`senderCoins < amount` passes, the call returns 200 with no error, the caller's balance
rises from 100 to 110 and the balance of "b" falls from 5 to -5. The service-level guard
`amount <= 0` refuses the same request with status 400 and leaves the tables alone. -/
theorem SendCoins_negative_amount :
    ∃ (p : Pool) (userid : Int) (touser : String) (amount : Int),
      p.store.NonNeg ∧ p.store.KeyedById ∧ amount < 0 ∧
      p.store.selectCoins userid = some 100 ∧ p.store.selectCoins 2 = some 5 ∧
      p.store.selectId touser = some 2 ∧
      (PGXDatabase.SendCoins noFaults userid touser amount p).status = StatusOK ∧
      (PGXDatabase.SendCoins noFaults userid touser amount p).err = none ∧
      (PGXDatabase.SendCoins noFaults userid touser amount p).pool.store.selectCoins userid
        = some 110 ∧
      (PGXDatabase.SendCoins noFaults userid touser amount p).pool.store.selectCoins 2
        = some (-5) ∧
      ¬ (PGXDatabase.SendCoins noFaults userid touser amount p).pool.store.NonNeg ∧
      ((shop noFaults).SendCoins ⟨"a", userid⟩ ⟨touser, amount⟩ p).status
        = StatusBadRequest ∧
      ((shop noFaults).SendCoins ⟨"a", userid⟩ ⟨touser, amount⟩ p).pool = p :=
  ⟨demoPool, 1, "b", -10, by unfold Store.NonNeg; decide, by unfold Store.KeyedById; decide,
    by decide, by decide, by decide, by decide, by decide, by decide, by decide, by decide,
    by unfold Store.NonNeg; decide, by decide, by decide⟩


/-! ## Errors and statuses -/

theorem PGX_SendCoins_consistent (f : Faults) (userid : Int) (touser : String) (a : Int)
    (p : Pool) : (PGXDatabase.SendCoins f userid touser a p).Consistent := by
  unfold PGXDatabase.SendCoins
  split
  · simp [Outcome.Consistent, StatusMatchesError, StatusInternalServerError, StatusOK]
  simp only
  split
  · simp [Outcome.Consistent, StatusMatchesError, PGXDatabase.abort, StatusBadRequest, StatusOK]
  split
  · simp [Outcome.Consistent, StatusMatchesError, PGXDatabase.abort,
      StatusInternalServerError, StatusOK]
  split
  · simp [Outcome.Consistent, StatusMatchesError, PGXDatabase.abort,
      StatusInternalServerError, StatusOK]
  split
  · simp [Outcome.Consistent, StatusMatchesError, PGXDatabase.abort,
      StatusInternalServerError, StatusOK]
  split
  · simp [Outcome.Consistent, StatusMatchesError, PGXDatabase.abort,
      StatusInternalServerError, StatusOK]
  split
  · simp [Outcome.Consistent, StatusMatchesError, PGXDatabase.abort,
      StatusInternalServerError, StatusOK]
  split
  · simp [Outcome.Consistent, StatusMatchesError, StatusInternalServerError, StatusOK]
  · simp [Outcome.Consistent, StatusMatchesError, StatusOK]

theorem PGX_BuyItem_consistent (f : Faults) (userid price : Int) (item : String)
    (p : Pool) : (PGXDatabase.BuyItem f userid price item p).Consistent := by
  unfold PGXDatabase.BuyItem
  split
  · simp [Outcome.Consistent, StatusMatchesError, StatusInternalServerError, StatusOK]
  simp only
  split
  · simp [Outcome.Consistent, StatusMatchesError, PGXDatabase.abort,
      StatusInternalServerError, StatusOK]
  split
  · simp [Outcome.Consistent, StatusMatchesError, PGXDatabase.abort, StatusBadRequest, StatusOK]
  split
  · simp [Outcome.Consistent, StatusMatchesError, PGXDatabase.abort,
      StatusInternalServerError, StatusOK]
  split
  · simp [Outcome.Consistent, StatusMatchesError, PGXDatabase.abort,
      StatusInternalServerError, StatusOK]
  split
  · simp [Outcome.Consistent, StatusMatchesError, StatusInternalServerError, StatusOK]
  · simp [Outcome.Consistent, StatusMatchesError, StatusOK]

theorem resolveUser_error_consistent {σ : Type} {s : Service σ} {x : Libs}
    {req : AuthRequest} {p : σ} {out : TokenOutcome σ}
    (h : Service.resolveUser s x req p = .error out) : out.Consistent := by
  unfold Service.resolveUser at h
  simp only at h
  split at h
  · split at h
    · cases h
      simp [TokenOutcome.Consistent, StatusMatchesError, StatusInternalServerError, StatusOK]
    · split at h
      · cases h
        simp [TokenOutcome.Consistent, StatusMatchesError, StatusInternalServerError, StatusOK]
      · cases h
  · split at h
    · cases h
      simp [TokenOutcome.Consistent, StatusMatchesError, StatusUnauthorized, StatusOK]
    · cases h

theorem GenerateToken_consistent {σ : Type} (s : Service σ) (jwtSecret : String) (x : Libs)
    (req : AuthRequest) (p : σ) : (s.GenerateToken jwtSecret x req p).Consistent := by
  unfold Service.GenerateToken
  cases hres : Service.resolveUser s x req p with
  | error out => exact resolveUser_error_consistent hres
  | ok v =>
    simp only
    split
    · simp [TokenOutcome.Consistent, StatusMatchesError, StatusInternalServerError, StatusOK]
    · simp [TokenOutcome.Consistent, StatusMatchesError, StatusOK]

theorem GetInfo_consistent {σ : Type} (s : Service σ) (user : Claims) (p : σ) :
    (s.GetInfo user p).Consistent := by
  unfold Service.GetInfo
  simp only
  split
  · simp [InfoOutcome.Consistent, StatusMatchesError, StatusInternalServerError, StatusOK]
  split
  · simp [InfoOutcome.Consistent, StatusMatchesError, StatusInternalServerError, StatusOK]
  split
  · simp [InfoOutcome.Consistent, StatusMatchesError, StatusInternalServerError, StatusOK]
  split
  · simp [InfoOutcome.Consistent, StatusMatchesError, StatusInternalServerError, StatusOK]
  · simp [InfoOutcome.Consistent, StatusMatchesError, StatusOK]

theorem shop_SendCoins_consistent (f : Faults) (user : Claims) (req : SendCoinRequest)
    (p : Pool) : ((shop f).SendCoins user req p).Consistent := by
  simp only [Service.SendCoins, shop, NewService, NewPGXDatabase]
  split
  · simp [Outcome.Consistent, StatusMatchesError, StatusBadRequest, StatusOK]
  split
  · simp [Outcome.Consistent, StatusMatchesError, StatusBadRequest, StatusOK]
  · exact PGX_SendCoins_consistent f _ _ _ p

theorem shop_BuyItem_consistent (f : Faults) (user : Claims) (item : String)
    (p : Pool) : ((shop f).BuyItem user item p).Consistent := by
  simp only [Service.BuyItem, shop, NewService, NewPGXDatabase]
  split
  · simp [Outcome.Consistent, StatusMatchesError, StatusInternalServerError, StatusOK]
  · exact PGX_BuyItem_consistent f _ _ _ p

/-- C22: every service operation composed with the PGX database returns a non-nil error
if and only if its status is not 200, and every status returned together with an error is
400, 401 or 500, for every input, every store behaviour and every behaviour of the
libraries. -/
theorem status_matches_error (f : Faults) (jwtSecret : String) (x : Libs)
    (areq : AuthRequest) (user : Claims) (sreq : SendCoinRequest) (item : String) (p : Pool) :
    StatusMatchesError ((shop f).GenerateToken jwtSecret x areq p).err
      ((shop f).GenerateToken jwtSecret x areq p).status ∧
    StatusMatchesError ((shop f).GetInfo user p).err ((shop f).GetInfo user p).status ∧
    StatusMatchesError ((shop f).SendCoins user sreq p).err
      ((shop f).SendCoins user sreq p).status ∧
    StatusMatchesError ((shop f).BuyItem user item p).err
      ((shop f).BuyItem user item p).status :=
  ⟨GenerateToken_consistent (shop f) jwtSecret x areq p, GetInfo_consistent (shop f) user p,
    shop_SendCoins_consistent f user sreq p, shop_BuyItem_consistent f user item p⟩

/-- Witness of C22: a transfer whose credit the store refuses comes back with an error and
the status 500. -/
theorem status_matches_error_witness :
    ((shop (failAt (.updateAdd 30 2))).SendCoins ⟨"a", 1⟩ ⟨"b", 30⟩ demoPool).status = 400 ∨
    ((shop (failAt (.updateAdd 30 2))).SendCoins ⟨"a", 1⟩ ⟨"b", 30⟩ demoPool).status = 401 ∨
    ((shop (failAt (.updateAdd 30 2))).SendCoins ⟨"a", 1⟩ ⟨"b", 30⟩ demoPool).status = 500 :=
  (status_matches_error (failAt (.updateAdd 30 2)) "k" demoLibs ⟨"a", "pw"⟩ ⟨"a", 1⟩
    ⟨"b", 30⟩ "cup" demoPool).2.2.1.2 (by decide)


/-! ## Conservation and frame -/

theorem map_credit_of_absent (h : Int → Int) (k : Int) (l : List UserRow)
    (habs : ∀ u ∈ l, u.id ≠ k) :
    l.map (fun u => if u.id = k then { u with coins := h u.coins } else u) = l := by
  induction l with
  | nil => rfl
  | cons u l ih =>
    have hu : u.id ≠ k := habs u (List.mem_cons_self _ _)
    simp only [List.map_cons, if_neg hu]
    rw [ih (fun v hv => habs v (List.mem_cons_of_mem _ hv))]

theorem sum_map_credit (h : Int → Int) (d : Int) (hd : ∀ c, h c = c + d) (k : Int)
    (l : List UserRow) (hnd : (l.map (fun u => u.id)).Nodup) (hex : ∃ u ∈ l, u.id = k) :
    ((l.map (fun u => if u.id = k then { u with coins := h u.coins } else u)).map
      (fun u => u.coins)).sum = (l.map (fun u => u.coins)).sum + d := by
  induction l with
  | nil => obtain ⟨u, hu, _⟩ := hex; cases hu
  | cons u l ih =>
    simp only [List.map_cons, List.nodup_cons, List.mem_map, not_exists, not_and] at hnd
    by_cases hu : u.id = k
    · have habs : ∀ v ∈ l, v.id ≠ k := by
        intro v hv hvk
        exact hnd.1 v hv (hvk.trans hu.symm)
      simp only [List.map_cons, if_pos hu, List.sum_cons]
      rw [map_credit_of_absent h k l habs, hd]
      omega
    · have hex2 : ∃ v ∈ l, v.id = k := by
        obtain ⟨v, hv, hvk⟩ := hex
        rcases List.mem_cons.mp hv with rfl | hv
        · exact absurd hvk hu
        · exact ⟨v, hv, hvk⟩
      simp only [List.map_cons, if_neg hu, List.sum_cons]
      rw [ih hnd.2 hex2]
      omega

theorem total_updateSub {s : Store} (hk : s.KeyedById) {uid a : Int}
    (hex : ∃ u ∈ s.users, u.id = uid) : (s.updateSub a uid).total = s.total - a := by
  unfold Store.total Store.updateSub
  simp only
  rw [sum_map_credit (fun c => c - a) (-a) (fun c => Int.sub_eq_add_neg) uid s.users hk hex]
  omega

theorem total_updateAdd {s : Store} (hk : s.KeyedById) {uid a : Int}
    (hex : ∃ u ∈ s.users, u.id = uid) : (s.updateAdd a uid).total = s.total + a := by
  unfold Store.total Store.updateAdd
  simp only
  rw [sum_map_credit (fun c => c + a) a (fun c => rfl) uid s.users hk hex]

theorem selectId_mem {s : Store} {username : String} {r : Int}
    (h : s.selectId username = some r) :
    ∃ u ∈ s.users, u.id = r ∧ u.username = username := by
  unfold Store.selectId at h
  cases hf : s.users.find? (fun u => u.username == username) with
  | none => simp [hf] at h
  | some u =>
    rw [hf] at h
    refine ⟨u, List.mem_of_find?_eq_some hf, by simpa using h, ?_⟩
    simpa using List.find?_some hf

theorem mem_updateSub_id {s : Store} {a uid k : Int} (hex : ∃ u ∈ s.users, u.id = k) :
    ∃ u ∈ (s.updateSub a uid).users, u.id = k := by
  have hids := ids_updateSub s a uid
  obtain ⟨u, hu, hid⟩ := hex
  have hm : k ∈ (s.updateSub a uid).users.map (fun u => u.id) := by
    rw [hids]; exact List.mem_map.mpr ⟨u, hu, hid⟩
  obtain ⟨v, hv, hvid⟩ := List.mem_map.mp hm
  exact ⟨v, hv, hvid⟩

theorem keyed_updateSub {s : Store} (hk : s.KeyedById) (a uid : Int) :
    (s.updateSub a uid).KeyedById := by
  unfold Store.KeyedById
  rw [ids_updateSub]
  exact hk

theorem total_sendTables {s : Store} (hk : s.KeyedById) {uid r a c : Int} {touser : String}
    (hB : s.selectId touser = some r) (hA : s.selectCoins uid = some c) :
    (sendTables s uid r a).total = s.total := by
  obtain ⟨u, hu, hid, _⟩ := selectCoins_mem hA
  obtain ⟨v, hv, hvid, _⟩ := selectId_mem hB
  have h1 : (s.updateSub a uid).total = s.total - a := total_updateSub hk ⟨u, hu, hid⟩
  have h2 : ((s.updateSub a uid).updateAdd a r).total = (s.updateSub a uid).total + a :=
    total_updateAdd (keyed_updateSub hk a uid) (mem_updateSub_id ⟨v, hv, hvid⟩)
  have h3 : (sendTables s uid r a).total = ((s.updateSub a uid).updateAdd a r).total := rfl
  rw [h3, h2, h1]
  omega

theorem total_buyTables {s : Store} (hk : s.KeyedById) {uid price c : Int} {item : String}
    (hA : s.selectCoins uid = some c) :
    (buyTables s uid price item).total = s.total - price := by
  obtain ⟨u, hu, hid, _⟩ := selectCoins_mem hA
  have h1 : (s.updateSub price uid).total = s.total - price :=
    total_updateSub hk ⟨u, hu, hid⟩
  have h3 : (buyTables s uid price item).total = (s.updateSub price uid).total := by
    unfold buyTables Store.total
    rw [users_upsertInventory]
  rw [h3, h1]

/-- C28: transfers conserve coins. For every store whose `users` rows have pairwise
distinct ids and every database `SendCoins` call, successful or failed, recipient distinct
from or equal to the sender, under any behaviour of the store, the sum of all balances
after the call equals the sum before it; and a successful `BuyItem` with price `price`
lowers that sum by exactly `price`. -/
theorem coins_conserved (f : Faults) (userid : Int) (touser : String) (a price : Int)
    (item : String) (p : Pool) (hk : p.store.KeyedById) :
    (PGXDatabase.SendCoins f userid touser a p).pool.store.total = p.store.total ∧
    ((PGXDatabase.BuyItem f userid price item p).status = StatusOK →
      (PGXDatabase.BuyItem f userid price item p).pool.store.total
        = p.store.total - price) := by
  refine ⟨?_, ?_⟩
  · rcases SendCoins_cases f userid touser a p with h | ⟨r, c, hB, hA, _, hs, _⟩
    · rw [h.1]
    · rw [hs]; exact total_sendTables hk hB hA
  · intro hok
    rcases BuyItem_cases f userid price item p with h | ⟨c, hA, _, hs, _⟩
    · exact absurd hok h.2.2
    · rw [hs]; exact total_buyTables hk hA

/-- Witness of C28: after "a" buys a cup for 20 the balances sum to 85 instead of 105. -/
theorem coins_conserved_witness :
    (PGXDatabase.BuyItem noFaults 1 20 "cup" demoPool).pool.store.total = 105 - 20 ∧
    (PGXDatabase.SendCoins noFaults 1 "b" 30 demoPool).pool.store.total = 105 :=
  ⟨(coins_conserved noFaults 1 "b" 30 20 "cup" demoPool
      (by unfold Store.KeyedById; decide)).2 (by decide),
   by decide⟩


theorem transactions_upsertInventory (s : Store) (uid : Int) (item : String) :
    (s.upsertInventory uid item).coin_transactions = s.coin_transactions := by
  unfold Store.upsertInventory; split <;> rfl

theorem isFor_other {uid uid2 : Int} {item item2 : String} (hne : uid2 ≠ uid ∨ item2 ≠ item)
    {r : InventoryRow} (h : r.isFor uid2 item2 = true) : r.isFor uid item = false := by
  simp only [InventoryRow.isFor, Bool.and_eq_true, beq_iff_eq] at h
  simp only [InventoryRow.isFor, Bool.and_eq_false_iff, beq_eq_false_iff_ne]
  rcases hne with h1 | h1
  · left; rw [h.1]; exact h1
  · right; rw [h.2]; exact h1

theorem find_map_fixing (g : InventoryRow → InventoryRow) (P : InventoryRow → Bool)
    (hg : ∀ r, P (g r) = P r) (hfix : ∀ r, P r = true → g r = r) (l : List InventoryRow) :
    (l.map g).find? P = l.find? P := by
  induction l with
  | nil => rfl
  | cons r rs ih =>
    simp only [List.map_cons, List.find?_cons, hg]
    cases h : P r with
    | true => simp only [hfix r h]
    | false => exact ih

theorem quantity_upsertInventory_other (s : Store) (uid uid2 : Int) (item item2 : String)
    (hne : uid2 ≠ uid ∨ item2 ≠ item) :
    (s.upsertInventory uid item).quantity uid2 item2 = s.quantity uid2 item2 := by
  unfold Store.upsertInventory Store.quantity
  split
  · simp only
    rw [find_map_fixing _ (InventoryRow.isFor uid2 item2)]
    · intro r
      split <;> rfl
    · intro r hr
      rw [if_neg]
      rw [isFor_other hne hr]
      decide
  · have hnew : (⟨uid, item, 1⟩ : InventoryRow).isFor uid2 item2 = false := by
      simp only [InventoryRow.isFor, Bool.and_eq_false_iff, beq_eq_false_iff_ne]
      rcases hne with h1 | h1
      · left; exact fun h => h1 h.symm
      · right; exact fun h => h1 h.symm
    simp [List.find?_append, List.find?_cons, hnew]

theorem filter_others_upsertInventory (s : Store) (uid : Int) (item : String) :
    (s.upsertInventory uid item).user_inventory.filter (fun r => !r.isFor uid item)
      = s.user_inventory.filter (fun r => !r.isFor uid item) := by
  unfold Store.upsertInventory
  split
  · simp only
    rw [List.filter_map]
    have hcomp : ((fun r => !InventoryRow.isFor uid item r) ∘ fun r =>
        if r.isFor uid item then ({ r with quantity := r.quantity + 1 } : InventoryRow) else r)
        = fun r => !InventoryRow.isFor uid item r := by
      funext r
      simp only [Function.comp, bump_keeps_isFor]
    rw [hcomp]
    conv_rhs => rw [← List.map_id (List.filter _ _)]
    apply List.map_congr_left
    intro r hr
    have hr2 : r.isFor uid item = false := by simpa using (List.mem_filter.mp hr).2
    simp [hr2]
  · simp [List.filter_append, InventoryRow.isFor]

/-- C29: frame of the two mutations, under any behaviour of the store. A `SendCoins` call
changes no balance other than the sender's and the recipient's (the id the recipient's
name resolves to), leaves the inventory table as it was, and keeps every existing
transaction record in its place: the log afterwards is the log before, followed by what
the call added. A `BuyItem` call changes no balance other than the buyer's, leaves every
inventory row other than those of (buyer, item) as it was, hence every other quantity,
and leaves the transaction log unchanged. -/
theorem mutations_frame (f : Faults) (userid : Int) (touser : String) (a price : Int)
    (item : String) (p : Pool) :
    (∀ k, k ≠ userid → p.store.selectId touser ≠ some k →
      (PGXDatabase.SendCoins f userid touser a p).pool.store.selectCoins k
        = p.store.selectCoins k) ∧
    (PGXDatabase.SendCoins f userid touser a p).pool.store.user_inventory
      = p.store.user_inventory ∧
    (∃ added, (PGXDatabase.SendCoins f userid touser a p).pool.store.coin_transactions
      = p.store.coin_transactions ++ added) ∧
    (∀ k, k ≠ userid →
      (PGXDatabase.BuyItem f userid price item p).pool.store.selectCoins k
        = p.store.selectCoins k) ∧
    (PGXDatabase.BuyItem f userid price item p).pool.store.user_inventory.filter
        (fun r => !r.isFor userid item)
      = p.store.user_inventory.filter (fun r => !r.isFor userid item) ∧
    (∀ uid2 item2, uid2 ≠ userid ∨ item2 ≠ item →
      (PGXDatabase.BuyItem f userid price item p).pool.store.quantity uid2 item2
        = p.store.quantity uid2 item2) ∧
    (PGXDatabase.BuyItem f userid price item p).pool.store.coin_transactions
      = p.store.coin_transactions := by
  rcases SendCoins_cases f userid touser a p with h | ⟨r, c, hB, _, _, hs, _⟩
  <;> rcases BuyItem_cases f userid price item p with h2 | ⟨c2, _, _, hs2, _⟩
  all_goals refine ⟨?_, ?_, ?_, ?_, ?_, ?_, ?_⟩
  all_goals first
    | (rw [h.1]; done)
    | (rw [h2.1]; done)
    | (intro k _ _; rw [h.1]; done)
    | (intro k _; rw [h2.1]; done)
    | (intro _ _ _; rw [h2.1]; done)
    | (exact ⟨[], by rw [h.1, List.append_nil]⟩)
    | (rw [hs]; rfl)
    | (exact ⟨[⟨userid, r, a⟩], by rw [hs]; rfl⟩)
    | (intro k hk hr
       rw [hs]
       simp only [sendTables, selectCoins_insertTransaction, selectCoins_updateAdd,
         selectCoins_updateSub]
       have hr2 : k ≠ r := fun hkr => hr (by rw [hB, hkr])
       simp [hk, hr2]
       done)
    | (intro k hk
       rw [hs2]
       simp only [buyTables, selectCoins_upsertInventory, selectCoins_updateSub]
       simp [hk]
       done)
    | (rw [hs2]; exact filter_others_upsertInventory _ userid item)
    | (intro uid2 item2 hne
       rw [hs2]
       exact quantity_upsertInventory_other _ userid uid2 item item2 hne)
    | (rw [hs2]; exact transactions_upsertInventory _ userid item)

/-- Witness of C29: "a" sends 30 to "b" in a store with a third user "c"; the balance of
"c" stays 7. -/
theorem mutations_frame_witness :
    (PGXDatabase.SendCoins noFaults 1 "b" 30
      ⟨⟨[⟨1, "a", "h", 100⟩, ⟨2, "b", "h", 5⟩, ⟨3, "c", "h", 7⟩], [⟨3, "cup", 1⟩], []⟩,
        []⟩).pool.store.selectCoins 3 = some 7 :=
  (mutations_frame noFaults 1 "b" 30 20 "cup"
    ⟨⟨[⟨1, "a", "h", 100⟩, ⟨2, "b", "h", 5⟩, ⟨3, "c", "h", 7⟩], [⟨3, "cup", 1⟩], []⟩,
      []⟩).1 3 (by decide) (by decide)


/-! ## Runs of requests -/

theorem InsertUserQuery_store_cases (f : Faults) (username passhash : String) (p : Pool) :
    (PGXDatabase.InsertUserQuery f username passhash p).pool.store = p.store ∨
    (PGXDatabase.InsertUserQuery f username passhash p).pool.store
      = (p.store.insertUser username passhash).1 := by
  unfold PGXDatabase.InsertUserQuery
  split
  · left; rfl
  · split
    · left; rfl
    · right; rfl

theorem GenerateToken_pool_cases {σ : Type} (s : Service σ) (jwtSecret : String) (x : Libs)
    (req : AuthRequest) (p : σ) :
    (s.GenerateToken jwtSecret x req p).pool
      = (s.database.SelectIDPassHashQuery req.Username p).pool ∨
    ∃ hashed, (s.GenerateToken jwtSecret x req p).pool
      = (s.database.InsertUserQuery req.Username hashed
          (s.database.SelectIDPassHashQuery req.Username p).pool).pool := by
  unfold Service.GenerateToken Service.resolveUser
  simp only
  cases h1 : (s.database.SelectIDPassHashQuery req.Username p).err with
  | some e0 =>
    simp only
    cases h2 : x.GenerateFromPassword req.Password with
    | error e => left; rfl
    | ok hashed =>
      simp only
      right
      refine ⟨hashed, ?_⟩
      cases h3 : (s.database.InsertUserQuery req.Username hashed
          (s.database.SelectIDPassHashQuery req.Username p).pool).err with
      | some e => rfl
      | none =>
        simp only
        split <;> rfl
  | none =>
    simp only
    left
    cases h2 : x.CompareHashAndPassword
        (s.database.SelectIDPassHashQuery req.Username p).val.2 req.Password with
    | some e => rfl
    | none =>
      simp only
      split <;> rfl

theorem shop_GenerateToken_store_cases (f : Faults) (jwtSecret : String) (x : Libs)
    (req : AuthRequest) (p : Pool) :
    ((shop f).GenerateToken jwtSecret x req p).pool.store = p.store ∨
    ∃ hashed, ((shop f).GenerateToken jwtSecret x req p).pool.store
      = (p.store.insertUser req.Username hashed).1 := by
  have hl := SelectIDPassHashQuery_store f req.Username p
  rcases GenerateToken_pool_cases (shop f) jwtSecret x req p with h | ⟨hashed, h⟩
  · left
    rw [h]
    exact hl
  · rcases InsertUserQuery_store_cases f req.Username hashed
        (PGXDatabase.SelectIDPassHashQuery f req.Username p).pool with h2 | h2
    · left
      rw [h]
      exact h2.trans hl
    · right
      refine ⟨hashed, ?_⟩
      rw [h]
      rw [hl] at h2
      exact h2

theorem keyed_insertUser {s : Store} (hk : s.KeyedById) (username passhash : String) :
    (s.insertUser username passhash).1.KeyedById := by
  unfold Store.KeyedById Store.insertUser
  simp only [List.map_append, List.map_cons, List.map_nil]
  rw [List.nodup_append]
  refine ⟨hk, List.nodup_singleton _, ?_⟩
  intro a ha hb
  rw [List.mem_singleton] at hb
  obtain ⟨u, hu, rfl⟩ := List.mem_map.mp ha
  have := id_lt_nextId s u hu
  omega

theorem shop_SendCoins_cases (f : Faults) (user : Claims) (req : SendCoinRequest) (p : Pool) :
    (((shop f).SendCoins user req p).pool.store = p.store ∧
      ((shop f).SendCoins user req p).status ≠ StatusOK) ∨
    (0 < req.Amount ∧ req.ToUser ≠ user.Username ∧
      ∃ r c, p.store.selectId req.ToUser = some r ∧
        p.store.selectCoins user.UserID = some c ∧ req.Amount ≤ c ∧
        ((shop f).SendCoins user req p).pool.store
          = sendTables p.store user.UserID r req.Amount ∧
        ((shop f).SendCoins user req p).status = StatusOK) := by
  by_cases ha : req.Amount ≤ 0
  · left
    simp [Service.SendCoins, ha, StatusBadRequest, StatusOK]
  · by_cases hr : req.ToUser = "" ∨ req.ToUser = user.Username
    · left
      simp [Service.SendCoins, ha, hr, StatusBadRequest, StatusOK]
    · have heq : (shop f).SendCoins user req p
          = PGXDatabase.SendCoins f user.UserID req.ToUser req.Amount p := by
        simp [shop, NewService, NewPGXDatabase, Service.SendCoins, ha, hr]
      rw [heq]
      rcases SendCoins_cases f user.UserID req.ToUser req.Amount p with
        h | ⟨r, c, hB, hA, hle, hs, _, hst⟩
      · left; exact ⟨h.1, h.2.2⟩
      · right
        rw [not_or] at hr
        exact ⟨by omega, hr.2, r, c, hB, hA, hle, hs, hst⟩

theorem shop_BuyItem_cases (f : Faults) (user : Claims) (item : String) (p : Pool) :
    (((shop f).BuyItem user item p).pool.store = p.store ∧
      ((shop f).BuyItem user item p).status ≠ StatusOK) ∨
    ∃ price c, merchItems.lookup item = some price ∧
      p.store.selectCoins user.UserID = some c ∧ price ≤ c ∧
      ((shop f).BuyItem user item p).pool.store
        = buyTables p.store user.UserID price item ∧
      ((shop f).BuyItem user item p).status = StatusOK := by
  cases hl : merchItems.lookup item with
  | none =>
    left
    simp [Service.BuyItem, shop, NewService, hl, StatusInternalServerError, StatusOK]
  | some price =>
    rw [shop_BuyItem_eq f user item price p hl]
    rcases BuyItem_cases f user.UserID price item p with h | ⟨c, hA, hle, hs, _, hst⟩
    · left; exact ⟨h.1, h.2.2⟩
    · right; exact ⟨price, c, rfl, hA, hle, hs, hst⟩

theorem Request_run_keyed (r : Request) (p : Pool) (hk : p.store.KeyedById) :
    (r.run p).2.store.KeyedById := by
  cases r with
  | register f jwtSecret x req =>
    simp only [Request.run]
    rcases shop_GenerateToken_store_cases f jwtSecret x req p with h | ⟨hashed, h⟩
    · rw [h]; exact hk
    · rw [h]; exact keyed_insertUser hk _ _
  | transfer f user req =>
    simp only [Request.run]
    rcases shop_SendCoins_cases f user req p with h | ⟨_, _, r, c, _, _, _, hs, _⟩
    · rw [h.1]; exact hk
    · rw [hs]; exact keyed_sendTables hk _ _ _
  | purchase f user item =>
    simp only [Request.run]
    rcases shop_BuyItem_cases f user item p with h | ⟨price, c, _, _, _, hs, _⟩
    · rw [h.1]; exact hk
    · rw [hs]; exact keyed_buyTables hk _ _ _

theorem Request_run_log (r : Request) (p : Pool) :
    (r.run p).2.store.coin_transactions = p.store.coin_transactions ++ r.record p := by
  cases r with
  | register f jwtSecret x req =>
    simp only [Request.run, Request.record, List.append_nil]
    rcases shop_GenerateToken_store_cases f jwtSecret x req p with h | ⟨hashed, h⟩
    · rw [h]
    · rw [h]; rfl
  | transfer f user req =>
    simp only [Request.run, Request.record]
    rcases shop_SendCoins_cases f user req p with h | ⟨_, _, r, c, hB, _, _, hs, hst⟩
    · rw [h.1, if_neg h.2, List.append_nil]
    · rw [hs, if_pos hst, hB]
      rfl
  | purchase f user item =>
    simp only [Request.run, Request.record, List.append_nil]
    rcases shop_BuyItem_cases f user item p with h | ⟨price, c, _, _, _, hs, _⟩
    · rw [h.1]
    · rw [hs]; exact transactions_upsertInventory _ _ _

theorem runRequests_log (rs : List Request) (p : Pool) :
    (runRequests rs p).store.coin_transactions = p.store.coin_transactions ++ records rs p := by
  induction rs generalizing p with
  | nil => simp [runRequests, records]
  | cons r rs ih =>
    simp only [runRequests, records]
    rw [ih, Request_run_log, List.append_assoc]

theorem records_length (rs : List Request) (p : Pool) :
    (records rs p).length = transfers rs p := by
  induction rs generalizing p with
  | nil => rfl
  | cons r rs ih =>
    simp only [records, transfers, List.length_append, ih]
    congr 1
    cases r with
    | register f jwtSecret x req => rfl
    | transfer f user req =>
      simp only [Request.record, Request.transferred]
      by_cases h : (Request.run (.transfer f user req) p).1 = StatusOK
      · simp [h]
      · simp [h]
    | purchase f user item => rfl

theorem runRequests_keyed (rs : List Request) (p : Pool) (hk : p.store.KeyedById) :
    (runRequests rs p).store.KeyedById := by
  induction rs generalizing p with
  | nil => exact hk
  | cons r rs ih => exact ih _ (Request_run_keyed r p hk)

theorem transfer_moves_coins (q : Pool) (f : Faults) (user : Claims) (req : SendCoinRequest)
    (hk : q.store.KeyedById) (hh : q.store.Holds user)
    (hok : ((shop f).SendCoins user req q).status = StatusOK) :
    ∃ receiverID c cB, q.store.selectId req.ToUser = some receiverID ∧
      receiverID ≠ user.UserID ∧ 0 < req.Amount ∧
      q.store.selectCoins user.UserID = some c ∧
      q.store.selectCoins receiverID = some cB ∧
      ((shop f).SendCoins user req q).pool.store.selectCoins user.UserID
        = some (c - req.Amount) ∧
      ((shop f).SendCoins user req q).pool.store.selectCoins receiverID
        = some (cB + req.Amount) ∧
      ((shop f).SendCoins user req q).pool.store.coin_transactions
        = q.store.coin_transactions ++ [⟨user.UserID, receiverID, req.Amount⟩] := by
  rcases shop_SendCoins_cases f user req q with h | ⟨ha, hne, r, c, hB, hA, _, hs, _⟩
  · exact absurd hok h.2
  · obtain ⟨v, hv, hvid, hvname⟩ := selectId_mem hB
    obtain ⟨u, hu, huid, huname⟩ := hh
    have hrne : r ≠ user.UserID := by
      intro heq
      have huv : u = v := keyed_unique hk hu hv (by rw [huid, hvid, heq])
      apply hne
      rw [← hvname, ← huname, huv]
    have hcB : ∃ cB, q.store.selectCoins r = some cB := by
      unfold Store.selectCoins
      cases hf : q.store.users.find? (fun u => u.id == r) with
      | none =>
        rw [List.find?_eq_none] at hf
        exact absurd (by simpa using hvid) (hf v hv)
      | some w => exact ⟨w.coins, rfl⟩
    obtain ⟨cB, hcB⟩ := hcB
    refine ⟨r, c, cB, hB, hrne, ha, hA, hcB, ?_, ?_, ?_⟩
    · rw [hs]
      simp [sendTables, selectCoins_insertTransaction, selectCoins_updateAdd,
        selectCoins_updateSub, hA, Ne.symm hrne]
    · rw [hs]
      simp [sendTables, selectCoins_insertTransaction, selectCoins_updateAdd,
        selectCoins_updateSub, hcB, hrne]
    · rw [hs]; rfl

theorem Request_run_log_untouched (q : Pool) (r : Request) (h : r.transferred q = false) :
    (r.run q).2.store.coin_transactions = q.store.coin_transactions := by
  rw [Request_run_log]
  cases r with
  | register f jwtSecret x req => simp [Request.record]
  | transfer f user req =>
    simp only [Request.transferred, decide_eq_false_iff_not] at h
    simp [Request.record, h]
  | purchase f user item => simp [Request.record]

/-- C23: in every store state reachable from an initial state with an empty transaction
log by register, transfer and purchase requests, each under any behaviour of the store,
the transaction log is exactly the records of the transfers that returned success, in
their order: its length is the number of successful transfers, and each record carries the
sender id, the recipient id and the amount of its transfer. The key constraint of `users`
holds in every such state, and in a state where it holds a successful transfer by a
caller whose claims are those of a row of `users` lowers the sender's balance and raises
the recipient's by the amount and appends its one record. A request that is not a
successful transfer appends nothing. -/
theorem transaction_log_invariant (rs : List Request) (p : Pool)
    (h0 : p.store.coin_transactions = []) (hk : p.store.KeyedById) :
    (runRequests rs p).store.coin_transactions = records rs p ∧
    (runRequests rs p).store.coin_transactions.length = transfers rs p ∧
    (runRequests rs p).store.KeyedById ∧
    (∀ (q : Pool) (f : Faults) (user : Claims) (req : SendCoinRequest),
      q.store.KeyedById → q.store.Holds user →
      ((shop f).SendCoins user req q).status = StatusOK →
      ∃ receiverID c cB, q.store.selectId req.ToUser = some receiverID ∧
        receiverID ≠ user.UserID ∧ 0 < req.Amount ∧
        q.store.selectCoins user.UserID = some c ∧
        q.store.selectCoins receiverID = some cB ∧
        ((shop f).SendCoins user req q).pool.store.selectCoins user.UserID
          = some (c - req.Amount) ∧
        ((shop f).SendCoins user req q).pool.store.selectCoins receiverID
          = some (cB + req.Amount) ∧
        ((shop f).SendCoins user req q).pool.store.coin_transactions
          = q.store.coin_transactions ++ [⟨user.UserID, receiverID, req.Amount⟩]) ∧
    (∀ (q : Pool) (r : Request), r.transferred q = false →
      (r.run q).2.store.coin_transactions = q.store.coin_transactions) := by
  have hlog : (runRequests rs p).store.coin_transactions = records rs p := by
    rw [runRequests_log, h0, List.nil_append]
  refine ⟨hlog, ?_, runRequests_keyed rs p hk, ?_, Request_run_log_untouched⟩
  · rw [hlog, records_length]
  · intro q f user req hkq hh hok
    exact transfer_moves_coins q f user req hkq hh hok

/-- Witness of C23: "zed" registers, "a" sends "b" 30, "b" fails to send 100 back, "a" buys
a cup, "b" sends "a" 10; the log holds the two successful transfers, in that order. -/
theorem transaction_log_invariant_witness :
    (runRequests
      [.register noFaults "k" demoLibs ⟨"zed", "pw"⟩, .transfer noFaults ⟨"a", 1⟩ ⟨"b", 30⟩,
       .transfer noFaults ⟨"b", 2⟩ ⟨"a", 100⟩, .purchase noFaults ⟨"a", 1⟩ "cup",
       .transfer noFaults ⟨"b", 2⟩ ⟨"a", 10⟩] demoPool).store.coin_transactions
      = [⟨1, 2, 30⟩, ⟨2, 1, 10⟩] :=
  ((transaction_log_invariant
    [.register noFaults "k" demoLibs ⟨"zed", "pw"⟩, .transfer noFaults ⟨"a", 1⟩ ⟨"b", 30⟩,
     .transfer noFaults ⟨"b", 2⟩ ⟨"a", 100⟩, .purchase noFaults ⟨"a", 1⟩ "cup",
     .transfer noFaults ⟨"b", 2⟩ ⟨"a", 10⟩] demoPool rfl
    (by unfold Store.KeyedById; decide)).1).trans (by decide)

theorem inventory_insertUser (s : Store) (username passhash : String) :
    (s.insertUser username passhash).1.user_inventory = s.user_inventory := rfl

theorem Request_run_quantity (r : Request) (p : Pool) (uid : Int) (item : String) :
    (r.run p).2.store.quantity uid item =
      if r.bought uid item p then some ((p.store.quantity uid item).getD 0 + 1)
      else p.store.quantity uid item := by
  cases r with
  | register f jwtSecret x req =>
    simp only [Request.run, Request.bought]
    rcases shop_GenerateToken_store_cases f jwtSecret x req p with h | ⟨hashed, h⟩
    · rw [h]; rfl
    · rw [h]; rfl
  | transfer f user req =>
    simp only [Request.run, Request.bought]
    rcases shop_SendCoins_cases f user req p with h | ⟨_, _, r, c, _, _, _, hs, _⟩
    · rw [h.1]; rfl
    · rw [hs]; rfl
  | purchase f user it =>
    simp only [Request.run, Request.bought]
    rcases shop_BuyItem_cases f user it p with h | ⟨price, c, _, _, _, hs, hst⟩
    · rw [h.1]
      have : ¬ (user.UserID = uid ∧ it = item ∧ ((shop f).BuyItem user it p).status = StatusOK) :=
        fun hh => h.2 hh.2.2
      simp [this]
    · rw [hs]
      by_cases hkey : user.UserID = uid ∧ it = item
      · obtain ⟨rfl, rfl⟩ := hkey
        rw [quantity_buyTables]
        simp only [hst, and_self, decide_True, if_true]
        cases p.store.quantity user.UserID it with
        | none => rfl
        | some q => rfl
      · have hne : uid ≠ user.UserID ∨ item ≠ it := by
          by_contra hc
          rw [not_or, not_not, not_not] at hc
          exact hkey ⟨hc.1.symm, hc.2.symm⟩
        have hb : ¬ (user.UserID = uid ∧ it = item ∧
            ((shop f).BuyItem user it p).status = StatusOK) :=
          fun hh => hkey ⟨hh.1, hh.2.1⟩
        simp only [hb, decide_False, Bool.false_eq_true, if_false]
        unfold buyTables
        rw [quantity_upsertInventory_other _ user.UserID uid it item hne]
        rfl

theorem runRequests_quantity (rs : List Request) (p : Pool) (uid : Int) (item : String) :
    ((runRequests rs p).store.quantity uid item).getD 0
      = (p.store.quantity uid item).getD 0 + purchases uid item rs p := by
  induction rs generalizing p with
  | nil => simp [runRequests, purchases]
  | cons r rs ih =>
    simp only [runRequests, purchases]
    rw [ih, Request_run_quantity]
    by_cases hb : r.bought uid item p = true
    · simp only [hb, if_true, Option.getD_some]
      omega
    · simp only [hb, Bool.false_eq_true, if_false]
      omega

/-- C24: in every store state reachable from an initial state with empty inventory by
register, transfer and purchase requests, each under any behaviour of the store, for every
user and item name the inventory quantity of (user, item), an absent entry counted as 0,
equals the number of purchases of that item by that user that returned success. A request
that is not a successful purchase of that item by that user, so every transfer, every
registration and every failed purchase, leaves the quantity of (user, item) as it was. -/
theorem inventory_counts_purchases (rs : List Request) (p : Pool) (userid : Int)
    (item : String) (h0 : p.store.user_inventory = []) :
    ((runRequests rs p).store.quantity userid item).getD 0 = purchases userid item rs p ∧
    (∀ (q : Pool) (r : Request), r.bought userid item q = false →
      (r.run q).2.store.quantity userid item = q.store.quantity userid item) := by
  refine ⟨?_, ?_⟩
  · rw [runRequests_quantity]
    have : p.store.quantity userid item = none := by
      unfold Store.quantity
      rw [h0]
      rfl
    rw [this]
    simp
  · intro q r hb
    rw [Request_run_quantity, hb]
    rfl

/-- Witness of C24: "a" buys a cup, fails to buy a pink hoody, sends "b" 30, buys a
second cup; "a" holds two cups. -/
theorem inventory_counts_purchases_witness :
    ((runRequests
      [.purchase noFaults ⟨"a", 1⟩ "cup", .purchase noFaults ⟨"a", 1⟩ "pink-hoody",
       .transfer noFaults ⟨"a", 1⟩ ⟨"b", 30⟩, .purchase noFaults ⟨"a", 1⟩ "cup"]
      demoPool).store.quantity 1 "cup").getD 0 = 2 :=
  ((inventory_counts_purchases
    [.purchase noFaults ⟨"a", 1⟩ "cup", .purchase noFaults ⟨"a", 1⟩ "pink-hoody",
     .transfer noFaults ⟨"a", 1⟩ ⟨"b", 30⟩, .purchase noFaults ⟨"a", 1⟩ "cup"]
    demoPool 1 "cup" rfl).1).trans (by decide)

end Coins
